import Mathlib

/-!
# Verification of the KgBites shared order service

Shallow embedding of `orderService.js` (the shared OTP-style order service used by
both the student and staff portals).  The service keeps every order in a JSON map
stored under several `localStorage` keys plus a `sessionStorage` backup; every
operation begins with `getAllOrders`, which merges all of these mirrors, drops the
orders whose `expires_at` lies in the past, and (when the merged map is nonempty)
rewrites the five `localStorage` keys with the merged map.

Modelling conventions:
* JS objects used as string-keyed maps become association lists (`OrderMap`);
  assignment to an existing key replaces the entry in place, assignment to a fresh
  key appends, and the spread `{...a, ...b}` folds `b`'s entries into `a` — the
  same insertion-order semantics as JS objects.
* timestamps (`Date.now()`, ISO strings) become `Nat` milliseconds; each operation
  takes the current clock value `now` as an explicit parameter.
* the per-record logic (`saveOrder`, `getOrderByCode`, `updateOrder`,
  `markCounterDelivered`, `syncOrderStatusFromServer`, `generateOrderCode`) is
  modelled on the merged map view, which is exact for these operations because
  each of them writes the same map back to every `localStorage` key and the
  session backup; the side effect of `getAllOrders` visible to them is exactly
  the expiry purge, so the operations purge on entry (`purgeExpired`) just as
  the source calls `getAllOrders()` first.  The full multi-key storage layout
  is modelled as `ClientStorage` / `getAllOrders`, and `markOrderAsUsed` — the
  one mutator that writes only the main and shared keys — is modelled on it.
* monetary fields (`subtotal`, `tax_amount`, …) are floating-point in the source
  and are not referenced by any of the order-lifecycle logic modelled here, so
  they are omitted from the record.
* `Math.random()` draws become an explicit stream of character indices
  (`CodeDraw`); the `attempts`/`maxAttempts` bounded loop of `generateOrderCode`
  becomes structural recursion on the remaining attempt budget.
-/

/-- One line item inside an order, as stored in `items_by_counter`
(`{id, name, quantity, unit_price, total_price, delivered}`; the price fields are
floating point and unused by the delivery logic, so they are not carried). -/
structure OrderItem where
  id : Nat
  name : String
  quantity : Nat
  delivered : Bool
  deriving DecidableEq

/-- An order record as the service stores it.  `Option` marks the fields that a
record may lack in JS (`undefined`): `otp_status` is absent on legacy orders,
`counters_completed` may be absent before the first delivery, `expires_at` is
absent on records that never went through `saveOrder`. -/
structure OrderRecord where
  order_code : String
  otp_status : Option String
  created_at : Nat
  updated_at : Nat
  expires_at : Option Nat
  used_at : Option Nat
  generated_by : Option String
  items_by_counter : List (String × List OrderItem)
  counters_involved : Option (List String)
  counters_completed : Option (List String)
  is_complete : Bool
  deriving DecidableEq

/-- The merged order map (a JS object keyed by order code). -/
abbrev OrderMap := List (String × OrderRecord)

/-- `obj[key]` on a JS object modelled as an association list. -/
def omLookup (m : OrderMap) (k : String) : Option OrderRecord :=
  (m.find? (fun p => p.1 == k)).map (fun p => p.2)

/-- `obj[key] = v` on a JS object: replace in place when the key exists,
append otherwise. -/
def omInsert (m : OrderMap) (k : String) (v : OrderRecord) : OrderMap :=
  if m.any (fun p => p.1 == k) then
    m.map (fun p => if p.1 == k then (k, v) else p)
  else
    m ++ [(k, v)]

/-- `order.expires_at && new Date(order.expires_at) < now`. -/
def isExpiredAt (now : Nat) (o : OrderRecord) : Bool :=
  match o.expires_at with
  | some e => decide (e < now)
  | none => false

/-- The expiry filter inside `getAllOrders`: delete every order whose
`expires_at` lies strictly in the past. -/
def purgeExpired (now : Nat) (m : OrderMap) : OrderMap :=
  m.filter (fun p => !isExpiredAt now p.2)

/-- 24 hours in milliseconds (`24 * 60 * 60 * 1000`). -/
def dayMs : Nat := 86400000

/-- `OrderService.saveOrder`: stamp the order with `created_at`/`updated_at`,
`otp_status: 'active'`, the creating origin and a 24-hour expiry, then store it
under its code (the source writes the same map to every storage key). -/
def saveOrder (m : OrderMap) (now : Nat) (origin : String) (orderData : OrderRecord) : OrderMap :=
  let o := { orderData with
    created_at := now
    updated_at := now
    otp_status := some "active"
    generated_by := some origin
    expires_at := some (now + dayMs) }
  omInsert (purgeExpired now m) orderData.order_code o

/-- `OrderService.updateOrder`: merge `updates` over the stored record
(`{...orders[orderCode], ...updates, updated_at: now}`) when the code is present,
else report `false`.  The spread of the `updates` object over the stored record
is passed as the function `upd`. -/
def updateOrder (m : OrderMap) (now : Nat) (code : String) (upd : OrderRecord → OrderRecord) :
    Bool × OrderMap :=
  let m1 := purgeExpired now m
  match omLookup m1 code with
  | none => (false, m1)
  | some o => (true, omInsert m1 code { upd o with updated_at := now })

/-- The legacy-order upgrade inside `getOrderByCode`: a record without
`otp_status` is re-activated with a fresh 24-hour expiry. -/
def legacyUpgrade (now : Nat) (o : OrderRecord) : OrderRecord :=
  { o with
    otp_status := some "active"
    expires_at := some (now + dayMs)
    generated_by := some (o.generated_by.getD "Legacy System") }

/-- `OrderService.getOrderByCode`: look the code up in the merged, purged map;
upgrade a legacy record (writing it back through `updateOrder`); return `null`
for a used or expired record, the record otherwise.  The returned pair carries
the storage state after the call (the lookup writes only on the legacy path). -/
def getOrderByCode (m : OrderMap) (now : Nat) (code : String) :
    Option OrderRecord × OrderMap :=
  let m1 := purgeExpired now m
  match omLookup m1 code with
  | none => (none, m1)
  | some o0 =>
    let o := if o0.otp_status.isNone then legacyUpgrade now o0 else o0
    let m2 := if o0.otp_status.isNone then
        (updateOrder m1 now code (fun _ => legacyUpgrade now o0)).2
      else m1
    if o.otp_status == some "used" then (none, m2)
    else if isExpiredAt now o then (none, m2)
    else (some o, m2)

/-- `items.map(item => ({...item, delivered: deliveredItems.includes(item.id) ? true : item.delivered}))`. -/
def markItemsDelivered (deliveredItems : List Nat) (items : List OrderItem) : List OrderItem :=
  items.map (fun it => if deliveredItems.contains it.id then { it with delivered := true } else it)

/-- `order.items_by_counter && order.items_by_counter[counterName]` (an existing
group is truthy even when empty). -/
def hasCounter (o : OrderRecord) (c : String) : Bool :=
  o.items_by_counter.any (fun p => p.1 == c)

/-- The record mutation performed by `markCounterDelivered` before it calls
`updateOrder`: flag the listed items of the counter's group as delivered,
unconditionally add the counter to `counters_completed` (initialising the list
when absent), and recompute `is_complete` as "every counter key is in
`counters_completed`". -/
def deliveredOrder (o : OrderRecord) (counterName : String) (deliveredItems : List Nat) :
    OrderRecord :=
  let o1 := if hasCounter o counterName then
      { o with items_by_counter := o.items_by_counter.map (fun p =>
          if p.1 == counterName then (p.1, markItemsDelivered deliveredItems p.2) else p) }
    else o
  let completed0 := o1.counters_completed.getD []
  let completed := if completed0.contains counterName then completed0
    else completed0 ++ [counterName]
  { o1 with
    counters_completed := some completed
    is_complete := (o1.items_by_counter.map Prod.fst).all (fun c => completed.contains c) }

/-- `OrderService.markCounterDelivered`: validate the code through
`getOrderByCode`, apply `deliveredOrder`, and persist through `updateOrder`. -/
def markCounterDelivered (m : OrderMap) (now : Nat) (code counterName : String)
    (deliveredItems : List Nat) : Bool × OrderMap :=
  match getOrderByCode m now code with
  | (none, m1) => (false, m1)
  | (some o, m1) => updateOrder m1 now code (fun _ => deliveredOrder o counterName deliveredItems)

/-- The status field of the server's lightweight OTP status response
(`{status: 'used'|'expired'|'active'|'not_found'|'error'}`; a `used` response may
carry a `used_at` stamp). -/
inductive ServerStatus where
  | used (usedAt : Option Nat)
  | expired
  | active
  | notFound
  | error
  deriving DecidableEq

/-- `current.counters_involved || Object.keys(current.items_by_counter || {})`
(note that in JS an empty `counters_involved` array is truthy and is used as-is). -/
def countersInvolvedOf (o : OrderRecord) : List String :=
  match o.counters_involved with
  | some l => l
  | none => o.items_by_counter.map Prod.fst

/-- The record produced by a `used` status response: status and completion flag
overwritten, `counters_completed` set to all involved counters, `used_at`
stamped (server value, else the local clock), `updated_at` refreshed by
`updateOrder`. -/
def syncedUsed (now : Nat) (usedAt : Option Nat) (o : OrderRecord) : OrderRecord :=
  { o with
    otp_status := some "used"
    is_complete := true
    counters_completed := some (countersInvolvedOf o)
    used_at := some (usedAt.getD now)
    updated_at := now }

/-- `OrderService.syncOrderStatusFromServer`, with the already-fetched server
status response as a parameter: `used` overwrites status, completion flag,
completed counters and `used_at`; `expired`/`active` overwrite only
`otp_status`; `not_found`/`error` write nothing.  Returns the updated storage
and the record the source returns (`getAllOrders()[orderCode] || null`). -/
def syncOrderStatusFromServer (m : OrderMap) (now : Nat) (code : String)
    (resp : ServerStatus) : OrderMap × Option OrderRecord :=
  let m1 := purgeExpired now m
  let current := omLookup m1 code
  let m2 := match resp with
    | .used usedAt =>
      let involved := match current with
        | some o => countersInvolvedOf o
        | none => []
      (updateOrder m1 now code (fun o =>
        { o with
          otp_status := some "used"
          is_complete := true
          counters_completed := some involved
          used_at := some (usedAt.getD now) })).2
    | .expired => (updateOrder m1 now code (fun o => { o with otp_status := some "expired" })).2
    | .active => (updateOrder m1 now code (fun o => { o with otp_status := some "active" })).2
    | .notFound => m1
    | .error => m1
  (m2, omLookup (purgeExpired now m2) code)

/-- `'ABCDEFGHIJKLMNOPQRSTUVWXYZ'`. -/
def lettersList : List Char := "ABCDEFGHIJKLMNOPQRSTUVWXYZ".data

/-- `'0123456789'`. -/
def digitsList : List Char := "0123456789".data

/-- One iteration's worth of `Math.random()` draws in `generateOrderCode`:
indices for two letters and four digits. -/
abbrev CodeDraw := Fin 26 × Fin 26 × Fin 10 × Fin 10 × Fin 10 × Fin 10

/-- `letter1 + letter2 + num1 + num2 + num3 + num4`. -/
def mkCode (d : CodeDraw) : String :=
  String.mk [lettersList.getD d.1.val 'A', lettersList.getD d.2.1.val 'A',
    digitsList.getD d.2.2.1.val '0', digitsList.getD d.2.2.2.1.val '0',
    digitsList.getD d.2.2.2.2.1.val '0', digitsList.getD d.2.2.2.2.2.val '0']

/-- `'OR' + Date.now().toString().slice(-4)`: the last four decimal digits of the
clock (exact for `now ≥ 1000`, which every epoch-millisecond clock satisfies). -/
def fallbackCode (now : Nat) : String :=
  String.mk ['O', 'R', digitsList.getD (now / 1000 % 10) '0', digitsList.getD (now / 100 % 10) '0',
    digitsList.getD (now / 10 % 10) '0', digitsList.getD (now % 10) '0']

/-- The `do … while (this.getOrderByCode(code))` loop of `generateOrderCode`:
`i` counts the draws already made, so the running `attempts` counter is `i + 1`;
on `attempts >= 100` the timestamp fallback is returned without a lookup.  The
fuel argument mirrors the bound (`generateOrderCode` starts it at 100) and makes
the recursion structural; the fuel-exhausted branch is unreachable from that
starting point. -/
def genLoop (now : Nat) (draws : Nat → CodeDraw) : Nat → Nat → OrderMap → String × OrderMap
  | 0, _, m => (fallbackCode now, m)
  | fuel + 1, i, m =>
    let c := mkCode (draws i)
    if 100 ≤ i + 1 then (fallbackCode now, m)
    else
      match getOrderByCode m now c with
      | (some _, m1) => genLoop now draws fuel (i + 1) m1
      | (none, m1) => (c, m1)

/-- `OrderService.generateOrderCode`: draw random two-letter/four-digit codes
until one is not an active order's code, giving up after 100 attempts with the
timestamp-derived fallback. -/
def generateOrderCode (m : OrderMap) (now : Nat) (draws : Nat → CodeDraw) : String × OrderMap :=
  genLoop now draws 100 0 m

/-- The client-side storage the service reads: the five `localStorage` keys
merged by `getAllOrders`, in merge order, plus the `sessionStorage` backup
(`none` models an absent key). -/
structure ClientStorage where
  mainKey : Option OrderMap
  sharedKey : Option OrderMap
  studentKey : Option OrderMap
  staffKey : Option OrderMap
  crossPortKey : Option OrderMap
  sessionBackup : Option OrderMap
  deriving DecidableEq

/-- `allOrders = {...allOrders, ...orders}` for one storage key (skipped when the
key is absent). -/
def mergeInto (acc : OrderMap) (o : Option OrderMap) : OrderMap :=
  match o with
  | none => acc
  | some m => m.foldl (fun acc p => omInsert acc p.1 p.2) acc

/-- `OrderService.getAllOrders`: merge all five `localStorage` keys and the
`sessionStorage` backup, drop expired orders, and — only when the result is
nonempty — rewrite the five `localStorage` keys (the backup is not rewritten).
Returns the merged map and the storage after the call. -/
def getAllOrders (st : ClientStorage) (now : Nat) : OrderMap × ClientStorage :=
  let merged := mergeInto (mergeInto (mergeInto (mergeInto (mergeInto
    (mergeInto [] st.mainKey) st.sharedKey) st.studentKey) st.staffKey)
    st.crossPortKey) st.sessionBackup
  let merged := purgeExpired now merged
  let st1 := if 0 < merged.length then
      { st with
        mainKey := some merged
        sharedKey := some merged
        studentKey := some merged
        staffKey := some merged
        crossPortKey := some merged }
    else st
  (merged, st1)

/-- `OrderService.markOrderAsUsed`: consume the OTP — only an `active` record in
the merged view is switched to `used` (stamping `used_at`); otherwise nothing is
written and the call reports `false`.  Unlike the other mutators, the updated
map is written only to the main key (`this.storageKey = 'kgbites_orders'`) and
to `'kgbites_shared_orders'` — the student/staff/cross-port keys and the
session backup keep whatever `getAllOrders` left there.  (The source reads
`getAllOrders()` once; the two projections below denote that one pure call.) -/
def markOrderAsUsed (st : ClientStorage) (now : Nat) (code : String) : Bool × ClientStorage :=
  let orders := (getAllOrders st now).1
  let st1 := (getAllOrders st now).2
  match omLookup orders code with
  | some o =>
    if o.otp_status == some "active" then
      let orders2 := omInsert orders code { o with otp_status := some "used", used_at := some now }
      (true, { st1 with mainKey := some orders2, sharedKey := some orders2 })
    else (false, st1)
  | none => (false, st1)

/-- A storage view in which no order is already expired (the state of the merged
map right after the expiry purge of `getAllOrders`). -/
def allFresh (now : Nat) (m : OrderMap) : Prop :=
  ∀ p ∈ m, isExpiredAt now p.2 = false

/-- A freshly created order in the sense of `createOrderFromCart`:
`counters_completed` is the empty list and `is_complete` is `false`. -/
def FreshOrder (o : OrderRecord) : Prop :=
  o.counters_completed = some [] ∧ o.is_complete = false

/-- The completion invariant claimed by the spec: the stored `is_complete` flag
agrees with "every counter key of `items_by_counter` lies in
`counters_completed`". -/
def completionInvariant (o : OrderRecord) : Prop :=
  o.is_complete = (o.items_by_counter.map Prod.fst).all
    (fun c => (o.counters_completed.getD []).contains c)

/-! ### Concrete sample data used by witnesses and counterexamples -/

/-- A record with every optional field absent; concrete samples override the
fields they care about. -/
def baseOrder : OrderRecord :=
  { order_code := "", otp_status := none, created_at := 0, updated_at := 0,
    expires_at := none, used_at := none, generated_by := none,
    items_by_counter := [], counters_involved := none, counters_completed := none,
    is_complete := false }

/-- C4 sample: a consumed (used) order. -/
def c4UsedOrder : OrderRecord :=
  { baseOrder with order_code := "US1111", otp_status := some "used", expires_at := some 999999 }

/-- C4 sample: an order whose expiry (50) is in the past at clock 100. -/
def c4ExpiredOrder : OrderRecord :=
  { baseOrder with order_code := "EX2222", otp_status := some "active", expires_at := some 50 }

/-- C4 sample store: one used and one expired order; `"NO3333"` is absent. -/
def c4Map : OrderMap := [("US1111", c4UsedOrder), ("EX2222", c4ExpiredOrder)]

/-- C7 sample: an active local order with two involved counters. -/
def c7Order : OrderRecord :=
  { baseOrder with
    order_code := "AB1111"
    otp_status := some "active"
    expires_at := some 999999
    items_by_counter := [("Snacks", [])]
    counters_involved := some ["Snacks", "Drinks"]
    counters_completed := some [] }

/-- C7 sample store. -/
def c7Map : OrderMap := [("AB1111", c7Order)]

/-- C9 sample: an active order. -/
def c9Order : OrderRecord :=
  { baseOrder with order_code := "CD2222", otp_status := some "active", expires_at := some 999999 }

/-- C9 sample: an already-consumed order. -/
def c9UsedOrder : OrderRecord :=
  { baseOrder with
    order_code := "EF4444"
    otp_status := some "used"
    used_at := some 3
    expires_at := some 999999 }

/-- C9 sample store. -/
def c9Map : OrderMap := [("CD2222", c9Order), ("EF4444", c9UsedOrder)]

/-- C9 sample client storage: every `localStorage` key and the session backup
hold the same map, as they do right after a `saveOrder`. -/
def c9Storage : ClientStorage :=
  { mainKey := some c9Map
    sharedKey := some c9Map
    studentKey := some c9Map
    staffKey := some c9Map
    crossPortKey := some c9Map
    sessionBackup := some c9Map }

/-- C9 sample: the storage after consuming `"CD2222"` at clock 7. -/
def c9St1 : ClientStorage := (markOrderAsUsed c9Storage 7 "CD2222").2

/-- C9 sample: the storage after consuming `"CD2222"` a second time at
clock 9. -/
def c9St2 : ClientStorage := (markOrderAsUsed c9St1 9 "CD2222").2

/-- C3 sample: raw order data passed to `saveOrder`. -/
def c3Od : OrderRecord := { baseOrder with order_code := "GH5555" }

/-- C3 sample: a stored active order. -/
def c3Order : OrderRecord :=
  { baseOrder with
    order_code := "GH6666"
    otp_status := some "active"
    expires_at := some 999999
    items_by_counter := [("Snacks", [⟨1, "Tea", 1, false⟩])] }

/-- C3 sample store. -/
def c3Map : OrderMap := [("GH6666", c3Order)]

/-- C3 sample: the record stored after delivering item 1 of `"Snacks"` at
clock 5. -/
def c3Delivered : OrderRecord := { deliveredOrder c3Order "Snacks" [1] with updated_at := 5 }

/-- C1 sample: an undelivered item. -/
def c1Item1 : OrderItem := { id := 1, name := "Tea", quantity := 1, delivered := false }

/-- C1 sample: a second undelivered item of the same counter. -/
def c1Item2 : OrderItem := { id := 2, name := "Bun", quantity := 1, delivered := false }

/-- C1 sample: an active order with one counter owning two items, none
delivered, no counter completed. -/
def c1Order : OrderRecord :=
  { baseOrder with
    order_code := "AB1234"
    otp_status := some "active"
    expires_at := some 86400000
    items_by_counter := [("Snacks", [c1Item1, c1Item2])]
    counters_involved := some ["Snacks"]
    counters_completed := some [] }

/-- C1 sample store. -/
def c1Map : OrderMap := [("AB1234", c1Order)]

/-- C2 sample: a freshly created order with an empty cart — `items_by_counter`
has no counters (as `createOrderFromCart` produces for an empty item list). -/
def c2EmptyOrder : OrderRecord :=
  { baseOrder with
    order_code := "EM0000"
    otp_status := some "active"
    expires_at := some 999999
    counters_involved := some []
    counters_completed := some [] }

/-- C2 sample: a fresh one-counter order. -/
def c2Order : OrderRecord :=
  { baseOrder with
    order_code := "IJ7777"
    otp_status := some "active"
    expires_at := some 999999
    items_by_counter := [("Snacks", [⟨1, "Tea", 1, false⟩])]
    counters_involved := some ["Snacks"]
    counters_completed := some [] }

/-- C2 sample store. -/
def c2Map : OrderMap := [("IJ7777", c2Order)]

/-- C2 sample: the store after one delivery step at clock 3. -/
def c2After : OrderMap := (markCounterDelivered c2Map 3 "IJ7777" "Snacks" [1]).2

/-- C2 sample: the record stored after that step. -/
def c2Final : OrderRecord := { deliveredOrder c2Order "Snacks" [1] with updated_at := 3 }

/-- The states reachable from a starting store by any sequence of
`markCounterDelivered` calls (arbitrary clocks, codes, counters and item
lists). -/
inductive DeliverReachable : OrderMap → OrderMap → Prop where
  | refl (m : OrderMap) : DeliverReachable m m
  | step (m m2 : OrderMap) (now : Nat) (code c : String) (its : List Nat) :
      DeliverReachable m m2 →
      DeliverReachable m (markCounterDelivered m2 now code c its).2

/-- Every storage entry under the given code is a nonempty-cart order whose
`is_complete` flag satisfies the completion invariant. -/
def DeliveryInvAt (code : String) (m : OrderMap) : Prop :=
  ∀ p ∈ m, p.1 = code → p.2.items_by_counter ≠ [] ∧ completionInvariant p.2

/-- An uppercase letter of the code alphabet. -/
def isUpperLetter (ch : Char) : Bool := decide ('A' ≤ ch) && decide (ch ≤ 'Z')

/-- A decimal digit character. -/
def isDigitChar (ch : Char) : Bool := decide ('0' ≤ ch) && decide (ch ≤ '9')

/-- The fixed human-typable code pattern: exactly two uppercase letters followed
by four digits. -/
def isValidCodeFormat (s : String) : Bool :=
  match s.data with
  | [a, b, c, d, e, f] =>
    isUpperLetter a && isUpperLetter b && isDigitChar c && isDigitChar d
      && isDigitChar e && isDigitChar f
  | _ => false

/-- C5 sample: the random draw producing the code `"AB1234"`. -/
def c5DrawAB : CodeDraw := (0, 1, 1, 2, 3, 4)

/-- C5 sample: an active order holding the code every random draw collides
with. -/
def c5OrderAB : OrderRecord :=
  { baseOrder with order_code := "AB1234", otp_status := some "active", expires_at := some 99999999 }

/-- C5 sample: an active order already holding the timestamp-fallback code for
clock 15678. -/
def c5OrderOR : OrderRecord :=
  { baseOrder with order_code := "OR5678", otp_status := some "active", expires_at := some 99999999 }

/-- C5 sample store. -/
def c5Map : OrderMap := [("AB1234", c5OrderAB), ("OR5678", c5OrderOR)]

/-- C6 sample: the random draw producing `"AA0000"`. -/
def c6Draw : CodeDraw := (0, 0, 0, 0, 0, 0)

/-- C6 sample: an active order holding `"AA0000"`. -/
def c6Order : OrderRecord :=
  { baseOrder with order_code := "AA0000", otp_status := some "active", expires_at := some 999999 }

/-- C6 sample store. -/
def c6Map : OrderMap := [("AA0000", c6Order)]

/-- C10 sample: an unexpired order living in the main `localStorage` key. -/
def c10Active : OrderRecord :=
  { baseOrder with order_code := "AB1111", otp_status := some "active", expires_at := some 999999 }

/-- C10 sample: an expired order living only in the `sessionStorage` backup. -/
def c10Expired : OrderRecord :=
  { baseOrder with order_code := "CD2222", otp_status := some "active", expires_at := some 50 }

/-- C10 sample client storage. -/
def c10Storage : ClientStorage :=
  { mainKey := some [("AB1111", c10Active)]
    sharedKey := none
    studentKey := none
    staffKey := none
    crossPortKey := none
    sessionBackup := some [("CD2222", c10Expired)] }

/-- The `counters_completed` push of `markCounterDelivered`: append the counter
unless it is already present. -/
def pushNew (l : List String) (c : String) : List String :=
  if l.contains c then l else l ++ [c]

/-- The pure record transformation of one `markCounterDelivered` call (the
mutation plus the `updated_at` stamp added by `updateOrder`). -/
def deliverStep (now : Nat) (d : String × List Nat) (o : OrderRecord) : OrderRecord :=
  { deliveredOrder o d.1 d.2 with updated_at := now }

/-- The pure record transformation of a sequence of delivery calls. -/
def deliverFold (now : Nat) (o : OrderRecord) (l : List (String × List Nat)) : OrderRecord :=
  l.foldl (fun o d => deliverStep now d o) o

/-- A sequence of `markCounterDelivered` calls against one code at one clock,
acting on the store. -/
def applyDeliveries (m : OrderMap) (now : Nat) (code : String)
    (l : List (String × List Nat)) : OrderMap :=
  l.foldl (fun m d => (markCounterDelivered m now code d.1 d.2).2) m

/-- What a sequence of deliveries does to one counter group keyed `k`. -/
def itemsAfter (l : List (String × List Nat)) (k : String) (items : List OrderItem) :
    List OrderItem :=
  l.foldl (fun its d => if k == d.1 then markItemsDelivered d.2 its else its) items

/-- What a sequence of deliveries does to the `counters_completed` list. -/
def completedAfter (l : List (String × List Nat)) (cs : List String) : List String :=
  l.foldl (fun cs d => pushNew cs d.1) cs

/-- A delivery that lists every item id of its counter's group (the claim's
"delivering its counter's full item-id set"). -/
def FullDelivery (o : OrderRecord) (d : String × List Nat) : Prop :=
  ∀ q ∈ o.items_by_counter, q.1 = d.1 → ∀ it ∈ q.2, d.2.contains it.id = true

instance fullDeliveryDecidable (o : OrderRecord) (d : String × List Nat) :
    Decidable (FullDelivery o d) :=
  inferInstanceAs (Decidable (∀ q ∈ o.items_by_counter, q.1 = d.1 →
    ∀ it ∈ q.2, d.2.contains it.id = true))

/-- C8 sample: an active order with two counters (`A` owns item 1, `B` owns
items 2 and 3). -/
def c8Order : OrderRecord :=
  { baseOrder with
    order_code := "KL8888"
    otp_status := some "active"
    expires_at := some 999999
    items_by_counter := [("A", [⟨1, "Tea", 1, false⟩]), ("B", [⟨2, "Bun", 2, false⟩, ⟨3, "Dosa", 1, false⟩])]
    counters_involved := some ["A", "B"]
    counters_completed := some [] }

/-- C8 sample store. -/
def c8Map : OrderMap := [("KL8888", c8Order)]

/-- C8 sample: deliver `A` then `B`, each with its full item set. -/
def c8Seq1 : List (String × List Nat) := [("A", [1]), ("B", [2, 3])]

/-- C8 sample: the same two deliveries in the opposite order. -/
def c8Seq2 : List (String × List Nat) := [("B", [2, 3]), ("A", [1])]

/-! ## Basic lemmas about the storage map -/

theorem find?_map_replace (m : OrderMap) (k : String) (v : OrderRecord) :
    (m.map (fun p => if p.1 == k then (k, v) else p)).find? (fun p => p.1 == k)
      = (m.find? (fun p => p.1 == k)).map (fun _ => (k, v)) := by
  induction m with
  | nil => rfl
  | cons p m ih =>
    rw [List.map_cons]
    by_cases h : p.1 == k
    · rw [if_pos h, @List.find?_cons_of_pos _ (fun q => q.1 == k) (k, v) _ (by simp),
        @List.find?_cons_of_pos _ (fun q => q.1 == k) p _ h]
      rfl
    · rw [if_neg h, @List.find?_cons_of_neg _ (fun q => q.1 == k) p _ h,
        @List.find?_cons_of_neg _ (fun q => q.1 == k) p _ h, ih]

theorem find?_map_replace_ne (m : OrderMap) (k k' : String) (v : OrderRecord)
    (hne : k' ≠ k) :
    (m.map (fun p => if p.1 == k then (k, v) else p)).find? (fun p => p.1 == k')
      = m.find? (fun p => p.1 == k') := by
  have hkk : (k == k') = false := by
    cases hb : k == k' with
    | false => rfl
    | true => exact absurd (eq_of_beq hb).symm hne
  induction m with
  | nil => rfl
  | cons p m ih =>
    rw [List.map_cons]
    by_cases h : p.1 == k
    · have hp1 : p.1 = k := eq_of_beq h
      have hpk' : (p.1 == k') = false := hp1 ▸ hkk
      rw [if_pos h,
        @List.find?_cons_of_neg _ (fun q => q.1 == k') (k, v) _ (by simp [hkk]),
        @List.find?_cons_of_neg _ (fun q => q.1 == k') p _ (by simp [hpk']), ih]
    · rw [if_neg h]
      by_cases h' : p.1 == k'
      · rw [@List.find?_cons_of_pos _ (fun q => q.1 == k') p _ h',
          @List.find?_cons_of_pos _ (fun q => q.1 == k') p _ h']
      · rw [@List.find?_cons_of_neg _ (fun q => q.1 == k') p _ h',
          @List.find?_cons_of_neg _ (fun q => q.1 == k') p _ h', ih]

theorem omLookup_omInsert_self (m : OrderMap) (k : String) (v : OrderRecord) :
    omLookup (omInsert m k v) k = some v := by
  unfold omInsert omLookup
  by_cases hany : m.any (fun p => p.1 == k)
  · rw [if_pos hany, find?_map_replace]
    obtain ⟨x, hx, hpx⟩ := List.any_eq_true.mp hany
    cases hf : m.find? (fun p => p.1 == k) with
    | none => exact absurd (List.find?_eq_none.mp hf x hx) (by simp [hpx])
    | some q => simp
  · rw [if_neg hany, List.find?_append]
    have hnone : m.find? (fun p => p.1 == k) = none := by
      refine List.find?_eq_none.mpr (fun x hx hpx => ?_)
      exact hany (List.any_eq_true.mpr ⟨x, hx, hpx⟩)
    simp [hnone, List.find?_cons]

theorem omLookup_omInsert_ne (m : OrderMap) (k k' : String) (v : OrderRecord)
    (h : k' ≠ k) : omLookup (omInsert m k v) k' = omLookup m k' := by
  have hkk : (k == k') = false := by
    cases hb : k == k' with
    | false => rfl
    | true => exact absurd (eq_of_beq hb).symm h
  unfold omInsert omLookup
  by_cases hany : m.any (fun p => p.1 == k)
  · rw [if_pos hany, find?_map_replace_ne m k k' v h]
  · rw [if_neg hany, List.find?_append]
    cases hf : m.find? (fun p => p.1 == k') with
    | none => simp [List.find?_cons, hkk]
    | some q => simp

theorem omLookup_mem {m : OrderMap} {k : String} {v : OrderRecord}
    (h : omLookup m k = some v) : (k, v) ∈ m := by
  unfold omLookup at h
  cases hf : m.find? (fun p => p.1 == k) with
  | none => rw [hf] at h; simp at h
  | some p =>
    rw [hf] at h
    have hp := List.find?_some hf
    have hmem := List.mem_of_find?_eq_some hf
    have : p.1 = k := eq_of_beq hp
    have : p = (k, v) := by
      cases p with
      | mk a b => simp_all
    exact this ▸ hmem

theorem isExpiredAt_eq_false_of_lookup_purge {now : Nat} {m : OrderMap} {code : String}
    {o : OrderRecord} (h : omLookup (purgeExpired now m) code = some o) :
    isExpiredAt now o = false := by
  have hmem := omLookup_mem h
  have := (List.mem_filter.mp hmem).2
  simpa using this

theorem allFresh_purgeExpired (now : Nat) (m : OrderMap) :
    allFresh now (purgeExpired now m) := by
  intro p hp
  have := (List.mem_filter.mp hp).2
  simpa using this

theorem purgeExpired_eq_self {now : Nat} {m : OrderMap} (h : allFresh now m) :
    purgeExpired now m = m := by
  unfold purgeExpired
  exact List.filter_eq_self.mpr (fun p hp => by simp [h p hp])

theorem purgeExpired_idem (now : Nat) (m : OrderMap) :
    purgeExpired now (purgeExpired now m) = purgeExpired now m :=
  purgeExpired_eq_self (allFresh_purgeExpired now m)

theorem allFresh_omInsert {now : Nat} {m : OrderMap} {v : OrderRecord}
    (h : allFresh now m) (hv : isExpiredAt now v = false) (k : String) :
    allFresh now (omInsert m k v) := by
  intro p hp
  unfold omInsert at hp
  by_cases hany : m.any (fun q => q.1 == k)
  · rw [if_pos hany] at hp
    obtain ⟨q, hq, hpq⟩ := List.mem_map.mp hp
    by_cases hqk : q.1 == k
    · rw [if_pos hqk] at hpq; exact hpq ▸ hv
    · rw [if_neg (by simp [hqk])] at hpq; exact hpq ▸ h q hq
  · rw [if_neg hany] at hp
    rcases List.mem_append.mp hp with hl | hr
    · exact h p hl
    · simp only [List.mem_singleton] at hr; exact hr ▸ hv

/-! ## Unfolding lemmas for the service operations -/

theorem updateOrder_found {m : OrderMap} {now : Nat} {code : String} {o : OrderRecord}
    (h : omLookup (purgeExpired now m) code = some o) (upd : OrderRecord → OrderRecord) :
    updateOrder m now code upd
      = (true, omInsert (purgeExpired now m) code { upd o with updated_at := now }) := by
  simp only [updateOrder, h]

theorem updateOrder_notFound {m : OrderMap} {now : Nat} {code : String}
    (h : omLookup (purgeExpired now m) code = none) (upd : OrderRecord → OrderRecord) :
    updateOrder m now code upd = (false, purgeExpired now m) := by
  simp only [updateOrder, h]

theorem getOrderByCode_notFound {m : OrderMap} {now : Nat} {code : String}
    (h : omLookup (purgeExpired now m) code = none) :
    getOrderByCode m now code = (none, purgeExpired now m) := by
  simp only [getOrderByCode, h]

theorem getOrderByCode_of_status {m : OrderMap} {now : Nat} {code : String} {o : OrderRecord}
    {s : String} (h : omLookup (purgeExpired now m) code = some o)
    (hst : o.otp_status = some s) :
    getOrderByCode m now code
      = (if s == "used" then (none, purgeExpired now m)
         else if isExpiredAt now o then (none, purgeExpired now m)
         else (some o, purgeExpired now m)) := by
  simp only [getOrderByCode, h, hst]
  simp only [Option.isNone_some, Bool.false_eq_true, if_false]
  by_cases hu : s == "used"
  · have hs : s = "used" := eq_of_beq hu
    simp [hu, hst, hs]
  · have hs : ¬ s = "used" := fun he => hu (by rw [he]; exact beq_self_eq_true "used")
    simp [hu, hst, hs]

theorem getOrderByCode_active {m : OrderMap} {now : Nat} {code : String} {o : OrderRecord}
    (h : omLookup (purgeExpired now m) code = some o)
    (hst : o.otp_status = some "active") :
    getOrderByCode m now code = (some o, purgeExpired now m) := by
  rw [getOrderByCode_of_status h hst, isExpiredAt_eq_false_of_lookup_purge h]
  rfl

theorem getOrderByCode_used {m : OrderMap} {now : Nat} {code : String} {o : OrderRecord}
    (h : omLookup (purgeExpired now m) code = some o)
    (hst : o.otp_status = some "used") :
    getOrderByCode m now code = (none, purgeExpired now m) := by
  rw [getOrderByCode_of_status h hst]
  rfl

/-! ## Freshness of written records and derived operation specs -/

theorem isExpiredAt_of_expires_eq {now : Nat} {v o : OrderRecord}
    (h : v.expires_at = o.expires_at) : isExpiredAt now v = isExpiredAt now o := by
  unfold isExpiredAt
  rw [h]

theorem purgeExpired_omInsert_fresh {now : Nat} {m : OrderMap} {v : OrderRecord}
    (h : isExpiredAt now v = false) (k : String) :
    purgeExpired now (omInsert (purgeExpired now m) k v)
      = omInsert (purgeExpired now m) k v :=
  purgeExpired_eq_self (allFresh_omInsert (allFresh_purgeExpired now m) h k)

theorem deliveredOrder_expires_at (o : OrderRecord) (c : String) (its : List Nat) :
    (deliveredOrder o c its).expires_at = o.expires_at := by
  unfold deliveredOrder
  by_cases h : hasCounter o c <;> simp [h]

theorem deliveredOrder_otp_status (o : OrderRecord) (c : String) (its : List Nat) :
    (deliveredOrder o c its).otp_status = o.otp_status := by
  unfold deliveredOrder
  by_cases h : hasCounter o c <;> simp [h]

theorem markCounterDelivered_of_status {m : OrderMap} {now : Nat} {code : String}
    {o : OrderRecord} {s : String}
    (h : omLookup (purgeExpired now m) code = some o)
    (hst : o.otp_status = some s) (hs : (s == "used") = false)
    (c : String) (its : List Nat) :
    markCounterDelivered m now code c its
      = (true, omInsert (purgeExpired now m) code
          { deliveredOrder o c its with updated_at := now }) := by
  have hexp : isExpiredAt now o = false := isExpiredAt_eq_false_of_lookup_purge h
  have hg : getOrderByCode m now code = (some o, purgeExpired now m) := by
    rw [getOrderByCode_of_status h hst, hs, hexp]
    rfl
  have h2 : omLookup (purgeExpired now (purgeExpired now m)) code = some o := by
    rw [purgeExpired_idem]; exact h
  unfold markCounterDelivered
  rw [hg]
  show updateOrder (purgeExpired now m) now code (fun _ => deliveredOrder o c its) = _
  rw [updateOrder_found h2, purgeExpired_idem]

theorem markCounterDelivered_used {m : OrderMap} {now : Nat} {code : String}
    {o : OrderRecord} (h : omLookup (purgeExpired now m) code = some o)
    (hst : o.otp_status = some "used") (c : String) (its : List Nat) :
    markCounterDelivered m now code c its = (false, purgeExpired now m) := by
  unfold markCounterDelivered
  rw [getOrderByCode_used h hst]

theorem markCounterDelivered_notFound {m : OrderMap} {now : Nat} {code : String}
    (h : omLookup (purgeExpired now m) code = none) (c : String) (its : List Nat) :
    markCounterDelivered m now code c its = (false, purgeExpired now m) := by
  unfold markCounterDelivered
  rw [getOrderByCode_notFound h]

/-! ## Specs for `syncOrderStatusFromServer` -/

theorem sync_error_spec (m : OrderMap) (now : Nat) (code : String) :
    syncOrderStatusFromServer m now code ServerStatus.error
      = (purgeExpired now m, omLookup (purgeExpired now m) code) := by
  simp only [syncOrderStatusFromServer, purgeExpired_idem]

theorem sync_notFound_spec (m : OrderMap) (now : Nat) (code : String) :
    syncOrderStatusFromServer m now code ServerStatus.notFound
      = (purgeExpired now m, omLookup (purgeExpired now m) code) := by
  simp only [syncOrderStatusFromServer, purgeExpired_idem]

theorem sync_active_spec {m : OrderMap} {now : Nat} {code : String} {o : OrderRecord}
    (h : omLookup (purgeExpired now m) code = some o) :
    syncOrderStatusFromServer m now code ServerStatus.active
      = (omInsert (purgeExpired now m) code { o with otp_status := some "active", updated_at := now },
         some { o with otp_status := some "active", updated_at := now }) := by
  have h2 : omLookup (purgeExpired now (purgeExpired now m)) code = some o := by
    rw [purgeExpired_idem]; exact h
  have hexp := isExpiredAt_eq_false_of_lookup_purge h
  have hfresh : isExpiredAt now ({ o with otp_status := some "active", updated_at := now } : OrderRecord) = false := hexp
  simp only [syncOrderStatusFromServer, updateOrder_found h2, purgeExpired_idem]
  rw [purgeExpired_omInsert_fresh hfresh, omLookup_omInsert_self]

theorem sync_expired_spec {m : OrderMap} {now : Nat} {code : String} {o : OrderRecord}
    (h : omLookup (purgeExpired now m) code = some o) :
    syncOrderStatusFromServer m now code ServerStatus.expired
      = (omInsert (purgeExpired now m) code { o with otp_status := some "expired", updated_at := now },
         some { o with otp_status := some "expired", updated_at := now }) := by
  have h2 : omLookup (purgeExpired now (purgeExpired now m)) code = some o := by
    rw [purgeExpired_idem]; exact h
  have hexp := isExpiredAt_eq_false_of_lookup_purge h
  have hfresh : isExpiredAt now ({ o with otp_status := some "expired", updated_at := now } : OrderRecord) = false := hexp
  simp only [syncOrderStatusFromServer, updateOrder_found h2, purgeExpired_idem]
  rw [purgeExpired_omInsert_fresh hfresh, omLookup_omInsert_self]

theorem sync_used_spec {m : OrderMap} {now : Nat} {code : String} {o : OrderRecord}
    (usedAt : Option Nat) (h : omLookup (purgeExpired now m) code = some o) :
    syncOrderStatusFromServer m now code (ServerStatus.used usedAt)
      = (omInsert (purgeExpired now m) code (syncedUsed now usedAt o),
         some (syncedUsed now usedAt o)) := by
  have h2 : omLookup (purgeExpired now (purgeExpired now m)) code = some o := by
    rw [purgeExpired_idem]; exact h
  have hexp := isExpiredAt_eq_false_of_lookup_purge h
  have hfresh : isExpiredAt now (syncedUsed now usedAt o) = false := hexp
  simp only [syncOrderStatusFromServer, h, updateOrder_found h2, purgeExpired_idem, syncedUsed]
  have goal2 : (omInsert (purgeExpired now m) code (syncedUsed now usedAt o),
      omLookup (purgeExpired now (omInsert (purgeExpired now m) code (syncedUsed now usedAt o))) code)
      = (omInsert (purgeExpired now m) code (syncedUsed now usedAt o), some (syncedUsed now usedAt o)) := by
    rw [purgeExpired_omInsert_fresh hfresh, omLookup_omInsert_self]
  exact goal2

theorem isExpiredAt_legacyUpgrade (now : Nat) (o : OrderRecord) :
    isExpiredAt now (legacyUpgrade now o) = false := by
  simp [legacyUpgrade, isExpiredAt, Nat.not_lt, Nat.le_add_right]

theorem getOrderByCode_legacy {m : OrderMap} {now : Nat} {code : String} {o0 : OrderRecord}
    (h : omLookup (purgeExpired now m) code = some o0) (hn : o0.otp_status = none) :
    getOrderByCode m now code
      = (some (legacyUpgrade now o0),
         (updateOrder (purgeExpired now m) now code (fun _ => legacyUpgrade now o0)).2) := by
  simp only [getOrderByCode, h, hn, Option.isNone_none, if_true]
  have h1 : ((legacyUpgrade now o0).otp_status == some "used") = false := by
    simp [legacyUpgrade]
  rw [h1, isExpiredAt_legacyUpgrade]
  rfl

/-! ## Claim C4 — lookup failure modes of `getOrderByCode` -/

/-- C4 counterexample: `getOrderByCode` returns the same value (`none`) for a
used code, an expired code and an absent code, so the three outcomes are not
pairwise distinct as the claim states. -/
theorem c4_counterexample :
    omLookup c4Map "US1111" = some c4UsedOrder
    ∧ c4UsedOrder.otp_status = some "used"
    ∧ omLookup c4Map "EX2222" = some c4ExpiredOrder
    ∧ isExpiredAt 100 c4ExpiredOrder = true
    ∧ omLookup c4Map "NO3333" = none
    ∧ (getOrderByCode c4Map 100 "US1111").1 = (getOrderByCode c4Map 100 "NO3333").1
    ∧ (getOrderByCode c4Map 100 "EX2222").1 = (getOrderByCode c4Map 100 "NO3333").1
    ∧ (getOrderByCode c4Map 100 "US1111").1 = none := by
  decide

/-- C4 (amended): `getOrderByCode` does not distinguish its failure modes: an
absent code and a used code both return `none`, and any `some` result is
neither used nor expired (hence an expired or used record can never be told
apart from an absent one by the return value).  The pairwise-distinct outcomes
claimed by the spec exist only at the server status endpoint, not here. -/
theorem getOrderByCode_failure_collapse (m : OrderMap) (now : Nat) (code : String) :
    (omLookup (purgeExpired now m) code = none → (getOrderByCode m now code).1 = none)
    ∧ (∀ o, omLookup (purgeExpired now m) code = some o → o.otp_status = some "used" →
        (getOrderByCode m now code).1 = none)
    ∧ (∀ o, (getOrderByCode m now code).1 = some o →
        o.otp_status ≠ some "used" ∧ isExpiredAt now o = false) := by
  refine ⟨fun h => by rw [getOrderByCode_notFound h],
    fun o h hst => by rw [getOrderByCode_used h hst], ?_⟩
  intro o h
  cases hf : omLookup (purgeExpired now m) code with
  | none => rw [getOrderByCode_notFound hf] at h; simp at h
  | some o0 =>
    cases hn : o0.otp_status with
    | none =>
      rw [getOrderByCode_legacy hf hn] at h
      have ho : legacyUpgrade now o0 = o := by simpa using h
      refine ⟨fun heq => ?_, ?_⟩
      · rw [← ho] at heq
        simp [legacyUpgrade] at heq
      · rw [← ho]
        exact isExpiredAt_legacyUpgrade now o0
    | some s =>
      rw [getOrderByCode_of_status hf hn] at h
      by_cases hs : (s == "used") = true
      · rw [hs] at h; simp at h
      · rw [Bool.not_eq_true] at hs
        rw [hs, isExpiredAt_eq_false_of_lookup_purge hf] at h
        have ho : o0 = o := by simpa using h
        subst ho
        refine ⟨fun heq => ?_, isExpiredAt_eq_false_of_lookup_purge hf⟩
        rw [hn] at heq
        have : s = "used" := by simpa using heq
        rw [this] at hs
        simp at hs

/-- C4 witness: the amended theorem applied to the sample store — the used code
looks up as `none`, exactly like the absent code. -/
theorem c4_witness : (getOrderByCode c4Map 100 "US1111").1 = none :=
  (getOrderByCode_failure_collapse c4Map 100 "US1111").2.1 c4UsedOrder (by decide) (by decide)

/-! ## Claim C9 — `markOrderAsUsed` state machine -/

theorem getAllOrders_sessionBackup (st : ClientStorage) (now : Nat) :
    (getAllOrders st now).2.sessionBackup = st.sessionBackup := by
  simp only [getAllOrders]
  by_cases hc : 0 < (purgeExpired now (mergeInto (mergeInto (mergeInto (mergeInto (mergeInto
      (mergeInto [] st.mainKey) st.sharedKey) st.studentKey) st.staffKey)
      st.crossPortKey) st.sessionBackup)).length
  · rw [if_pos hc]
  · rw [if_neg hc]

/-- C9 counterexample: starting from storage where every mirror holds the
active order (the state `saveOrder` leaves), consuming the code succeeds and
writes `used`/`used_at = 7` to the main key — but the student/staff/cross-port
keys and the session backup still hold the active copy, and they win the next
`getAllOrders` merge, so the merged view is `active` again; a second
`markOrderAsUsed` then succeeds as well and rewrites `used_at` to 9.  The
`used` state is left and `used_at` is written twice, refuting the claim. -/
theorem c9_counterexample :
    (markOrderAsUsed c9Storage 7 "CD2222").1 = true
    ∧ (omLookup (c9St1.mainKey.getD []) "CD2222").map (fun o => (o.otp_status, o.used_at))
      = some (some "used", some 7)
    ∧ c9St1.studentKey = some c9Map
    ∧ c9St1.sessionBackup = some c9Map
    ∧ (omLookup (getAllOrders c9St1 8).1 "CD2222").map (fun o => o.otp_status)
      = some (some "active")
    ∧ (markOrderAsUsed c9St1 9 "CD2222").1 = true
    ∧ (omLookup (c9St2.mainKey.getD []) "CD2222").map (fun o => o.used_at)
      = some (some 9) := by
  decide

/-- C9 (amended): within one call, `markOrderAsUsed` consumes only an `active`
record — it then sets `otp_status` to `used`, stamps `used_at`, and writes the
updated map to the main and shared keys only; on a record that is absent or not
`active` it returns `false` and writes nothing.  The student, staff and
cross-port keys and the session backup are never written by the call, so the
stale `active` copies they hold override the `used` mark at the next
`getAllOrders` merge: the used state does not persist, and a later call can
consume the same code again, rewriting `used_at`. -/
theorem markOrderAsUsed_main_shared_only (st : ClientStorage) (now : Nat) (code : String) :
    (∀ o, omLookup (getAllOrders st now).1 code = some o → o.otp_status = some "active" →
      markOrderAsUsed st now code
        = (true, { (getAllOrders st now).2 with
            mainKey := some (omInsert (getAllOrders st now).1 code
              { o with otp_status := some "used", used_at := some now })
            sharedKey := some (omInsert (getAllOrders st now).1 code
              { o with otp_status := some "used", used_at := some now }) }))
    ∧ (∀ o, omLookup (getAllOrders st now).1 code = some o → o.otp_status ≠ some "active" →
      markOrderAsUsed st now code = (false, (getAllOrders st now).2))
    ∧ (omLookup (getAllOrders st now).1 code = none →
      markOrderAsUsed st now code = (false, (getAllOrders st now).2))
    ∧ (markOrderAsUsed st now code).2.studentKey = (getAllOrders st now).2.studentKey
    ∧ (markOrderAsUsed st now code).2.staffKey = (getAllOrders st now).2.staffKey
    ∧ (markOrderAsUsed st now code).2.crossPortKey = (getAllOrders st now).2.crossPortKey
    ∧ (markOrderAsUsed st now code).2.sessionBackup = st.sessionBackup := by
  have hrest : (markOrderAsUsed st now code).2.studentKey = (getAllOrders st now).2.studentKey
      ∧ (markOrderAsUsed st now code).2.staffKey = (getAllOrders st now).2.staffKey
      ∧ (markOrderAsUsed st now code).2.crossPortKey = (getAllOrders st now).2.crossPortKey
      ∧ (markOrderAsUsed st now code).2.sessionBackup
          = (getAllOrders st now).2.sessionBackup := by
    cases hf : omLookup (getAllOrders st now).1 code with
    | none => simp [markOrderAsUsed, hf]
    | some o =>
      by_cases hb : (o.otp_status == some "active") = true
      · simp [markOrderAsUsed, hf, hb]
      · simp [markOrderAsUsed, hf, hb]
  refine ⟨?_, ?_, ?_, hrest.1, hrest.2.1, hrest.2.2.1,
    hrest.2.2.2.trans (getAllOrders_sessionBackup st now)⟩
  · intro o h hst
    simp only [markOrderAsUsed, h, hst]
    rfl
  · intro o h hst
    have hb : (o.otp_status == some "active") = false := beq_eq_false_iff_ne.mpr hst
    simp only [markOrderAsUsed, h, hb]
    rfl
  · intro h
    simp only [markOrderAsUsed, h]

/-- C9 witness: on the sample storage, consuming the active order yields the
main/shared-only write of the amended theorem, consuming the already-used order
is refused, and the untouched mirrors still hold the original map. -/
theorem c9_witness :
    markOrderAsUsed c9Storage 7 "CD2222"
      = (true, { (getAllOrders c9Storage 7).2 with
          mainKey := some (omInsert (getAllOrders c9Storage 7).1 "CD2222"
            { c9Order with otp_status := some "used", used_at := some 7 })
          sharedKey := some (omInsert (getAllOrders c9Storage 7).1 "CD2222"
            { c9Order with otp_status := some "used", used_at := some 7 }) })
    ∧ markOrderAsUsed c9Storage 7 "EF4444" = (false, (getAllOrders c9Storage 7).2)
    ∧ (markOrderAsUsed c9Storage 7 "CD2222").2.sessionBackup = c9Storage.sessionBackup :=
  ⟨(markOrderAsUsed_main_shared_only c9Storage 7 "CD2222").1 c9Order (by decide) (by decide),
   (markOrderAsUsed_main_shared_only c9Storage 7 "EF4444").2.1 c9UsedOrder
     (by decide) (by decide),
   (markOrderAsUsed_main_shared_only c9Storage 7 "CD2222").2.2.2.2.2.2⟩

/-! ## Claim C7 — reconciliation overwrite policy -/

/-- C7: with a valid (unexpired, present) local copy, a `not_found` or `error`
status response leaves the local record untouched, while `active`, `expired`
and `used` overwrite `otp_status`; a `used` response additionally sets
`is_complete`, fills `counters_completed` with all involved counters and stamps
`used_at`. -/
theorem syncOrderStatus_overwrite_policy (m : OrderMap) (now : Nat) (code : String)
    (o : OrderRecord) (h : omLookup (purgeExpired now m) code = some o) :
    (syncOrderStatusFromServer m now code ServerStatus.error = (purgeExpired now m, some o))
    ∧ (syncOrderStatusFromServer m now code ServerStatus.notFound = (purgeExpired now m, some o))
    ∧ ((syncOrderStatusFromServer m now code ServerStatus.active).2
        = some { o with otp_status := some "active", updated_at := now })
    ∧ ((syncOrderStatusFromServer m now code ServerStatus.expired).2
        = some { o with otp_status := some "expired", updated_at := now })
    ∧ (∀ usedAt, (syncOrderStatusFromServer m now code (ServerStatus.used usedAt)).2
        = some (syncedUsed now usedAt o))
    ∧ (∀ usedAt, (syncedUsed now usedAt o).otp_status = some "used"
        ∧ (syncedUsed now usedAt o).is_complete = true
        ∧ (syncedUsed now usedAt o).counters_completed = some (countersInvolvedOf o)) := by
  refine ⟨?_, ?_, ?_, ?_, ?_, ?_⟩
  · rw [sync_error_spec, h]
  · rw [sync_notFound_spec, h]
  · rw [sync_active_spec h]
  · rw [sync_expired_spec h]
  · intro usedAt; rw [sync_used_spec usedAt h]
  · intro usedAt; exact ⟨rfl, rfl, rfl⟩

/-- C7 witness: the policy applied to the sample store — an `error` response
leaves the record as it was; a `used` response marks it complete with both
involved counters recorded. -/
theorem c7_witness :
    syncOrderStatusFromServer c7Map 10 "AB1111" ServerStatus.error
      = (purgeExpired 10 c7Map, some c7Order)
    ∧ (syncOrderStatusFromServer c7Map 10 "AB1111" (ServerStatus.used (some 9))).2
      = some (syncedUsed 10 (some 9) c7Order) :=
  ⟨(syncOrderStatus_overwrite_policy c7Map 10 "AB1111" c7Order (by decide)).1,
   (syncOrderStatus_overwrite_policy c7Map 10 "AB1111" c7Order (by decide)).2.2.2.2.1 (some 9)⟩

/-! ## Claim C3 — expiry is a fixed offset of creation and never extended -/

theorem getOrderByCode_snd_of_status {m : OrderMap} {now : Nat} {code : String}
    {o : OrderRecord} {s : String} (h : omLookup (purgeExpired now m) code = some o)
    (hst : o.otp_status = some s) :
    (getOrderByCode m now code).2 = purgeExpired now m := by
  rw [getOrderByCode_of_status h hst]
  by_cases hu : (s == "used") = true
  · simp [hu]
  · by_cases he : isExpiredAt now o = true <;> simp [hu, he]

/-- C3: `saveOrder` stamps `expires_at` as exactly `created_at + 24h`, and — for
any stored order that went through `saveOrder` (it has an `otp_status`) — a
lookup, a delivery marking, or a server-status sync never changes the record's
`expires_at`. -/
theorem expires_at_fixed_and_never_extended :
    (∀ (m : OrderMap) (now : Nat) (origin : String) (od : OrderRecord),
      ∃ o, omLookup (saveOrder m now origin od) od.order_code = some o
        ∧ o.created_at = now ∧ o.expires_at = some (o.created_at + dayMs))
    ∧ (∀ (m : OrderMap) (now : Nat) (code : String) (o : OrderRecord),
        omLookup (purgeExpired now m) code = some o → o.otp_status.isSome →
        (∀ o2, omLookup (getOrderByCode m now code).2 code = some o2 →
            o2.expires_at = o.expires_at)
        ∧ (∀ c its o2, omLookup (markCounterDelivered m now code c its).2 code = some o2 →
            o2.expires_at = o.expires_at)
        ∧ (∀ resp o2, omLookup (syncOrderStatusFromServer m now code resp).1 code = some o2 →
            o2.expires_at = o.expires_at)) := by
  constructor
  · intro m now origin od
    exact ⟨_, omLookup_omInsert_self (purgeExpired now m) od.order_code _, rfl, rfl⟩
  · intro m now code o h hsome
    obtain ⟨s, hs⟩ := Option.isSome_iff_exists.mp hsome
    refine ⟨?_, ?_, ?_⟩
    · intro o2 h2
      rw [getOrderByCode_snd_of_status h hs, h] at h2
      cases h2
      rfl
    · intro c its o2 h2
      by_cases hu : (s == "used") = true
      · have hs2 : o.otp_status = some "used" := by rw [hs, eq_of_beq hu]
        rw [markCounterDelivered_used h hs2, h] at h2
        cases h2
        rfl
      · rw [markCounterDelivered_of_status h hs (Bool.not_eq_true _ ▸ hu),
          omLookup_omInsert_self] at h2
        cases h2
        exact deliveredOrder_expires_at o c its
    · intro resp o2 h2
      cases resp with
      | used usedAt =>
        rw [sync_used_spec usedAt h, omLookup_omInsert_self] at h2
        cases h2
        rfl
      | expired =>
        rw [sync_expired_spec h, omLookup_omInsert_self] at h2
        cases h2
        rfl
      | active =>
        rw [sync_active_spec h, omLookup_omInsert_self] at h2
        cases h2
        rfl
      | notFound =>
        rw [sync_notFound_spec, h] at h2
        cases h2
        rfl
      | error =>
        rw [sync_error_spec, h] at h2
        cases h2
        rfl

/-- C3 witness: saving at clock 1000 stores `expires_at = created_at + 24h`, and
delivering against the sample active order does not move its expiry. -/
theorem c3_witness :
    (∃ o, omLookup (saveOrder [] 1000 "http://localhost:5173" c3Od) "GH5555" = some o
      ∧ o.created_at = 1000 ∧ o.expires_at = some (o.created_at + dayMs))
    ∧ c3Delivered.expires_at = c3Order.expires_at :=
  ⟨expires_at_fixed_and_never_extended.1 [] 1000 "http://localhost:5173" c3Od,
   (expires_at_fixed_and_never_extended.2 c3Map 5 "GH6666" c3Order (by decide)
      (by decide)).2.1 "Snacks" [1] c3Delivered (by decide)⟩

/-! ## Claim C1 — when a counter is added to `counters_completed` -/

theorem contains_push (l : List String) (c : String) :
    (if l.contains c then l else l ++ [c]).contains c = true := by
  by_cases h : l.contains c = true
  · have hm : c ∈ l := List.elem_iff.mp h
    simp [hm]
  · simp only [h, Bool.false_eq_true, if_false]
    have : c ∈ l ++ [c] := List.mem_append.mpr (Or.inr (List.mem_singleton.mpr rfl))
    exact List.elem_iff.mpr this

theorem deliveredOrder_contains_counter (o : OrderRecord) (c : String) (its : List Nat) :
    ((deliveredOrder o c its).counters_completed.getD []).contains c = true := by
  show (if ((if hasCounter o c then
      { o with items_by_counter := o.items_by_counter.map (fun p =>
          if p.1 == c then (p.1, markItemsDelivered its p.2) else p) }
    else o).counters_completed.getD []).contains c
      then _ else _ ++ [c]).contains c = true
  exact contains_push _ c

/-- C1 counterexample: delivering only item 1 of a two-item counter group still
adds the counter to `counters_completed` (and item 2 stays undelivered), so a
call that leaves an item undelivered does **not** leave `counters_completed`
unchanged. -/
theorem c1_counterexample :
    c1Order.counters_completed = some []
    ∧ (omLookup (markCounterDelivered c1Map 0 "AB1234" "Snacks" [1]).2 "AB1234").map
        (fun o => o.counters_completed) = some (some ["Snacks"])
    ∧ (omLookup (markCounterDelivered c1Map 0 "AB1234" "Snacks" [1]).2 "AB1234").map
        (fun o => o.items_by_counter.all (fun p => p.2.all (fun it => it.delivered)))
      = some false := by
  decide

/-- C1 (amended): `markCounterDelivered` adds the counter to
`counters_completed` unconditionally — whenever the code lookup succeeds, the
stored record afterwards contains the counter in `counters_completed`,
regardless of whether every item of the counter's group is delivered. -/
theorem markCounterDelivered_adds_unconditionally (m : OrderMap) (now : Nat)
    (code c : String) (its : List Nat) (o : OrderRecord)
    (h : omLookup (purgeExpired now m) code = some o)
    (hst : o.otp_status = some "active") :
    markCounterDelivered m now code c its
      = (true, omInsert (purgeExpired now m) code
          { deliveredOrder o c its with updated_at := now })
    ∧ ((deliveredOrder o c its).counters_completed.getD []).contains c = true :=
  ⟨markCounterDelivered_of_status h hst (by decide) c its,
   deliveredOrder_contains_counter o c its⟩

/-- C1 witness: the amended theorem at the sample order — a partial delivery of
item 1 still records `"Snacks"` as completed. -/
theorem c1_witness :
    markCounterDelivered c1Map 0 "AB1234" "Snacks" [1]
      = (true, omInsert (purgeExpired 0 c1Map) "AB1234"
          { deliveredOrder c1Order "Snacks" [1] with updated_at := 0 })
    ∧ ((deliveredOrder c1Order "Snacks" [1]).counters_completed.getD []).contains "Snacks"
      = true :=
  markCounterDelivered_adds_unconditionally c1Map 0 "AB1234" "Snacks" [1] c1Order
    (by decide) (by decide)

/-! ## Claim C2 — the completion flag tracks the counter set -/

theorem markCounterDelivered_legacy {m : OrderMap} {now : Nat} {code : String}
    {o0 : OrderRecord} (hf : omLookup (purgeExpired now m) code = some o0)
    (hn : o0.otp_status = none) (c : String) (its : List Nat) :
    markCounterDelivered m now code c its
      = (true, omInsert
          (omInsert (purgeExpired now m) code { legacyUpgrade now o0 with updated_at := now })
          code { deliveredOrder (legacyUpgrade now o0) c its with updated_at := now }) := by
  have h2 : omLookup (purgeExpired now (purgeExpired now m)) code = some o0 := by
    rw [purgeExpired_idem]; exact hf
  have hfresh : isExpiredAt now
      ({ legacyUpgrade now o0 with updated_at := now } : OrderRecord) = false :=
    isExpiredAt_legacyUpgrade now o0
  have hp := @purgeExpired_omInsert_fresh now m
    ({ legacyUpgrade now o0 with updated_at := now }) hfresh code
  have hl : omLookup (purgeExpired now
      (omInsert (purgeExpired now m) code { legacyUpgrade now o0 with updated_at := now })) code
      = some { legacyUpgrade now o0 with updated_at := now } := by
    rw [hp, omLookup_omInsert_self]
  unfold markCounterDelivered
  rw [getOrderByCode_legacy hf hn]
  show updateOrder
      ((updateOrder (purgeExpired now m) now code (fun _ => legacyUpgrade now o0)).2)
      now code (fun _ => deliveredOrder (legacyUpgrade now o0) c its) = _
  rw [@updateOrder_found (purgeExpired now m) now code o0 h2 (fun _ => legacyUpgrade now o0),
    purgeExpired_idem]
  rw [@updateOrder_found
    (omInsert (purgeExpired now m) code { legacyUpgrade now o0 with updated_at := now })
    now code ({ legacyUpgrade now o0 with updated_at := now })
    hl (fun _ => deliveredOrder (legacyUpgrade now o0) c its), hp]

theorem completionInvariant_deliveredOrder (o : OrderRecord) (c : String) (its : List Nat) :
    completionInvariant (deliveredOrder o c its) := rfl

theorem deliveredOrder_items_ne_nil {o : OrderRecord} (h : o.items_by_counter ≠ [])
    (c : String) (its : List Nat) : (deliveredOrder o c its).items_by_counter ≠ [] := by
  unfold deliveredOrder
  by_cases hc : hasCounter o c = true <;> simp [hc, List.map_eq_nil_iff, h]

theorem DeliveryInvAt_purge (code : String) (now : Nat) {m : OrderMap}
    (h : DeliveryInvAt code m) : DeliveryInvAt code (purgeExpired now m) :=
  fun p hp hk => h p (List.mem_filter.mp hp).1 hk

theorem DeliveryInvAt_omInsert (code k : String) {m : OrderMap} {v : OrderRecord}
    (h : DeliveryInvAt code m)
    (hv : k = code → v.items_by_counter ≠ [] ∧ completionInvariant v) :
    DeliveryInvAt code (omInsert m k v) := by
  intro p hp hk
  unfold omInsert at hp
  by_cases hany : m.any (fun q => q.1 == k)
  · rw [if_pos hany] at hp
    obtain ⟨q, hq, hpq⟩ := List.mem_map.mp hp
    by_cases hqk : (q.1 == k) = true
    · rw [if_pos hqk] at hpq
      subst hpq
      exact hv hk
    · rw [if_neg hqk] at hpq
      subst hpq
      exact h q hq hk
  · rw [if_neg hany] at hp
    rcases List.mem_append.mp hp with hl | hr2
    · exact h p hl hk
    · have hpv : p = (k, v) := by simpa using hr2
      subst hpv
      exact hv hk

theorem DeliveryInvAt_markCounterDelivered {code : String} {m : OrderMap}
    (hm : DeliveryInvAt code m) (now : Nat) (code' c : String) (its : List Nat) :
    DeliveryInvAt code (markCounterDelivered m now code' c its).2 := by
  cases hf : omLookup (purgeExpired now m) code' with
  | none =>
    rw [markCounterDelivered_notFound hf]
    exact DeliveryInvAt_purge code now hm
  | some o0 =>
    have hmem2 : (code', o0) ∈ m := (List.mem_filter.mp (omLookup_mem hf)).1
    have hbase : code' = code → o0.items_by_counter ≠ [] ∧ completionInvariant o0 :=
      fun hk => hm (code', o0) hmem2 hk
    cases hn : o0.otp_status with
    | none =>
      rw [markCounterDelivered_legacy hf hn]
      refine DeliveryInvAt_omInsert code code'
        (DeliveryInvAt_omInsert code code' (DeliveryInvAt_purge code now hm) ?_) ?_
      · intro hk
        exact hbase hk
      · intro hk
        obtain ⟨hne, _⟩ := hbase hk
        have hne2 : (legacyUpgrade now o0).items_by_counter ≠ [] := hne
        exact ⟨deliveredOrder_items_ne_nil hne2 c its,
          completionInvariant_deliveredOrder (legacyUpgrade now o0) c its⟩
    | some s =>
      by_cases hu : (s == "used") = true
      · have hs2 : o0.otp_status = some "used" := by rw [hn, eq_of_beq hu]
        rw [markCounterDelivered_used hf hs2]
        exact DeliveryInvAt_purge code now hm
      · rw [Bool.not_eq_true] at hu
        rw [markCounterDelivered_of_status hf hn hu]
        refine DeliveryInvAt_omInsert code code' (DeliveryInvAt_purge code now hm) ?_
        intro hk
        obtain ⟨hne, _⟩ := hbase hk
        exact ⟨deliveredOrder_items_ne_nil hne c its,
          completionInvariant_deliveredOrder o0 c its⟩

theorem DeliverReachable_inv {code : String} {m m2 : OrderMap}
    (hr : DeliverReachable m m2) (hm : DeliveryInvAt code m) : DeliveryInvAt code m2 := by
  induction hr with
  | refl => exact hm
  | step m4 now code' c its _ ih =>
    exact DeliveryInvAt_markCounterDelivered ih now code' c its

theorem all_contains_nil {l : List String} (h : l ≠ []) :
    (l.all (fun x => ([] : List String).contains x)) = false := by
  cases l with
  | nil => exact absurd rfl h
  | cons a t => rfl

/-- C2 counterexample: a freshly created empty-cart order (no counters) has
`is_complete = false` although every counter key of its empty
`items_by_counter` is vacuously contained in `counters_completed`, so the
claimed equivalence fails at the fresh state. -/
theorem c2_counterexample :
    FreshOrder c2EmptyOrder ∧ c2EmptyOrder.items_by_counter = []
    ∧ ¬ completionInvariant c2EmptyOrder := by
  refine ⟨⟨rfl, rfl⟩, rfl, ?_⟩
  unfold completionInvariant
  decide

/-- C2 (amended): for orders with at least one counter, the equivalence holds:
starting from any store whose records under the given code are freshly created
(`counters_completed = []`, `is_complete = false`) with a nonempty
`items_by_counter`, every record reachable by `markCounterDelivered` calls has
`is_complete` equal to "every counter key of `items_by_counter` is contained in
`counters_completed`". -/
theorem completion_flag_iff_all_counters (m0 m : OrderMap) (code : String)
    (h0 : ∀ p ∈ m0, p.1 = code → p.2.items_by_counter ≠ [] ∧ FreshOrder p.2)
    (hr : DeliverReachable m0 m) :
    ∀ o, omLookup m code = some o → completionInvariant o := by
  have hm0 : DeliveryInvAt code m0 := by
    intro p hp hk
    obtain ⟨hne, hfo⟩ := h0 p hp hk
    refine ⟨hne, ?_⟩
    unfold completionInvariant
    rw [hfo.2, hfo.1]
    exact (all_contains_nil (fun hmap => hne (List.map_eq_nil_iff.mp hmap))).symm
  intro o ho
  exact (DeliverReachable_inv hr hm0 (code, o) (omLookup_mem ho) rfl).2

/-- C2 witness: the amended theorem applied to the sample one-counter order
after a single delivery step — the stored record satisfies the completion
equivalence. -/
theorem c2_witness : completionInvariant c2Final :=
  completion_flag_iff_all_counters c2Map c2After "IJ7777"
    (by
      intro p hp hk
      have hp2 : p = ("IJ7777", c2Order) := by simpa [c2Map] using hp
      subst hp2
      exact ⟨by decide, ⟨rfl, rfl⟩⟩)
    (DeliverReachable.step c2Map c2Map 3 "IJ7777" "Snacks" [1] (DeliverReachable.refl c2Map))
    c2Final (by decide)

/-! ## Claims C5 and C6 — code generation -/

theorem getOrderByCode_none_stable {m : OrderMap} {now : Nat} {code : String}
    (h : (getOrderByCode m now code).1 = none) :
    (getOrderByCode m now code).2 = purgeExpired now m
    ∧ (getOrderByCode (purgeExpired now m) now code).1 = none := by
  cases hf : omLookup (purgeExpired now m) code with
  | none =>
    have hf2 : omLookup (purgeExpired now (purgeExpired now m)) code = none := by
      rw [purgeExpired_idem]; exact hf
    rw [getOrderByCode_notFound hf, getOrderByCode_notFound hf2]
    exact ⟨rfl, rfl⟩
  | some o0 =>
    cases hn : o0.otp_status with
    | none => rw [getOrderByCode_legacy hf hn] at h; simp at h
    | some s =>
      by_cases hu : (s == "used") = true
      · have hs2 : o0.otp_status = some "used" := by rw [hn, eq_of_beq hu]
        have hf2 : omLookup (purgeExpired now (purgeExpired now m)) code = some o0 := by
          rw [purgeExpired_idem]; exact hf
        rw [getOrderByCode_used hf hs2, getOrderByCode_used hf2 hs2]
        exact ⟨rfl, rfl⟩
      · rw [Bool.not_eq_true] at hu
        have hg := getOrderByCode_of_status hf hn
        rw [hu, isExpiredAt_eq_false_of_lookup_purge hf] at hg
        rw [hg] at h
        simp at h

theorem genLoop_result_not_taken (now : Nat) (draws : Nat → CodeDraw) :
    ∀ fuel i m, (genLoop now draws fuel i m).1 ≠ fallbackCode now →
      (getOrderByCode (genLoop now draws fuel i m).2 now (genLoop now draws fuel i m).1).1
        = none := by
  intro fuel
  induction fuel with
  | zero => intro i m hne; exact absurd rfl hne
  | succ fuel ih =>
    intro i m hne
    by_cases hi : 100 ≤ i + 1
    · exfalso
      apply hne
      simp [genLoop, hi]
    · rcases hgp : getOrderByCode m now (mkCode (draws i)) with ⟨a, m1⟩
      cases a with
      | some o =>
        have hred : genLoop now draws (fuel + 1) i m = genLoop now draws fuel (i + 1) m1 := by
          simp [genLoop, hi, hgp]
        rw [hred] at hne ⊢
        exact ih (i + 1) m1 hne
      | none =>
        have hred : genLoop now draws (fuel + 1) i m = (mkCode (draws i), m1) := by
          simp [genLoop, hi, hgp]
        rw [hred]
        have h1 : (getOrderByCode m now (mkCode (draws i))).1 = none := by rw [hgp]
        obtain ⟨h2, h3⟩ := getOrderByCode_none_stable h1
        have hm1 : m1 = purgeExpired now m := by rw [← h2, hgp]
        rw [hm1]
        exact h3

/-- C5 counterexample: with a store already holding active orders `"AB1234"`
and `"OR5678"` and a draw stream that always draws `"AB1234"`, the 100-attempt
loop gives up and returns the timestamp fallback `"OR5678"` — the code of a
simultaneously-active order, so the fallback path does not guarantee
uniqueness. -/
theorem c5_counterexample :
    (generateOrderCode c5Map 15678 (fun _ => c5DrawAB)).1 = "OR5678"
    ∧ (generateOrderCode c5Map 15678 (fun _ => c5DrawAB)).1 = fallbackCode 15678
    ∧ omLookup (purgeExpired 15678 c5Map) "OR5678" = some c5OrderOR
    ∧ c5OrderOR.otp_status = some "active"
    ∧ isExpiredAt 15678 c5OrderOR = false := by
  refine ⟨by decide, by decide, by decide, rfl, rfl⟩

/-- C5 (amended): every code returned through the random-draw path (i.e. any
result other than the timestamp fallback) fails `getOrderByCode` in the
post-call store — in particular it is not the code of any active, unexpired
order.  The fallback code returned after 100 collisions is not checked against
the store and may equal an active order's code. -/
theorem generateOrderCode_no_active_collision (m : OrderMap) (now : Nat)
    (draws : Nat → CodeDraw)
    (hne : (generateOrderCode m now draws).1 ≠ fallbackCode now) :
    (getOrderByCode (generateOrderCode m now draws).2 now
      (generateOrderCode m now draws).1).1 = none :=
  genLoop_result_not_taken now draws 100 0 m hne

/-- C5 witness: on an empty store the first draw is accepted, the result is not
the fallback, and the returned code indeed looks up as absent. -/
theorem c5_witness :
    (getOrderByCode (generateOrderCode [] 0 (fun _ => c5DrawAB)).2 0
      (generateOrderCode [] 0 (fun _ => c5DrawAB)).1).1 = none :=
  generateOrderCode_no_active_collision [] 0 (fun _ => c5DrawAB) (by decide)

theorem isUpperLetter_lettersList (i : Fin 26) :
    isUpperLetter (lettersList.getD i.val 'A') = true := by
  revert i
  decide

theorem isDigitChar_digitsList (i : Fin 10) :
    isDigitChar (digitsList.getD i.val '0') = true := by
  revert i
  decide

theorem isDigitChar_digitsList_mod (n : Nat) :
    isDigitChar (digitsList.getD (n % 10) '0') = true :=
  isDigitChar_digitsList ⟨n % 10, Nat.mod_lt _ (by decide)⟩

theorem isValidCodeFormat_mkCode (d : CodeDraw) : isValidCodeFormat (mkCode d) = true := by
  show (isUpperLetter (lettersList.getD d.1.val 'A')
      && isUpperLetter (lettersList.getD d.2.1.val 'A')
      && isDigitChar (digitsList.getD d.2.2.1.val '0')
      && isDigitChar (digitsList.getD d.2.2.2.1.val '0')
      && isDigitChar (digitsList.getD d.2.2.2.2.1.val '0')
      && isDigitChar (digitsList.getD d.2.2.2.2.2.val '0')) = true
  rw [isUpperLetter_lettersList d.1, isUpperLetter_lettersList d.2.1,
    isDigitChar_digitsList d.2.2.1, isDigitChar_digitsList d.2.2.2.1,
    isDigitChar_digitsList d.2.2.2.2.1, isDigitChar_digitsList d.2.2.2.2.2]
  rfl

theorem isValidCodeFormat_fallbackCode (now : Nat) :
    isValidCodeFormat (fallbackCode now) = true := by
  show (isUpperLetter 'O' && isUpperLetter 'R'
      && isDigitChar (digitsList.getD (now / 1000 % 10) '0')
      && isDigitChar (digitsList.getD (now / 100 % 10) '0')
      && isDigitChar (digitsList.getD (now / 10 % 10) '0')
      && isDigitChar (digitsList.getD (now % 10) '0')) = true
  rw [isDigitChar_digitsList_mod (now / 1000), isDigitChar_digitsList_mod (now / 100),
    isDigitChar_digitsList_mod (now / 10), isDigitChar_digitsList_mod now]
  rfl

theorem genLoop_valid_format (now : Nat) (draws : Nat → CodeDraw) :
    ∀ fuel i m, isValidCodeFormat (genLoop now draws fuel i m).1 = true := by
  intro fuel
  induction fuel with
  | zero => intro i m; exact isValidCodeFormat_fallbackCode now
  | succ fuel ih =>
    intro i m
    by_cases hi : 100 ≤ i + 1
    · have hred : genLoop now draws (fuel + 1) i m = (fallbackCode now, m) := by
        simp [genLoop, hi]
      rw [hred]
      exact isValidCodeFormat_fallbackCode now
    · rcases hgp : getOrderByCode m now (mkCode (draws i)) with ⟨a, m1⟩
      cases a with
      | some o =>
        have hred : genLoop now draws (fuel + 1) i m = genLoop now draws fuel (i + 1) m1 := by
          simp [genLoop, hi, hgp]
        rw [hred]
        exact ih (i + 1) m1
      | none =>
        have hred : genLoop now draws (fuel + 1) i m = (mkCode (draws i), m1) := by
          simp [genLoop, hi, hgp]
        rw [hred]
        exact isValidCodeFormat_mkCode (draws i)

theorem genLoop_congr (now : Nat) (draws draws2 : Nat → CodeDraw)
    (h : ∀ j, j < 100 → draws j = draws2 j) :
    ∀ fuel i m, fuel + i ≤ 100 → genLoop now draws fuel i m = genLoop now draws2 fuel i m := by
  intro fuel
  induction fuel with
  | zero => intro i m _; rfl
  | succ fuel ih =>
    intro i m hle
    have hj : draws i = draws2 i := h i (by omega)
    by_cases hi : 100 ≤ i + 1
    · simp [genLoop, hi]
    · rcases hgp : getOrderByCode m now (mkCode (draws2 i)) with ⟨a, m1⟩
      cases a with
      | some o =>
        have hred : genLoop now draws (fuel + 1) i m = genLoop now draws fuel (i + 1) m1 := by
          simp [genLoop, hi, hj, hgp]
        have hred2 : genLoop now draws2 (fuel + 1) i m = genLoop now draws2 fuel (i + 1) m1 := by
          simp [genLoop, hi, hgp]
        rw [hred, hred2]
        exact ih (i + 1) m1 (by omega)
      | none =>
        have hred : genLoop now draws (fuel + 1) i m = (mkCode (draws2 i), m1) := by
          simp [genLoop, hi, hj, hgp]
        have hred2 : genLoop now draws2 (fuel + 1) i m = (mkCode (draws2 i), m1) := by
          simp [genLoop, hi, hgp]
        rw [hred, hred2]

theorem genLoop_all_collide (now : Nat) (draws : Nat → CodeDraw) (m : OrderMap)
    (hall : ∀ i, i < 99 → ∃ o, omLookup (purgeExpired now m) (mkCode (draws i)) = some o
      ∧ o.otp_status = some "active") :
    ∀ fuel i m2, purgeExpired now m2 = purgeExpired now m → fuel + i ≤ 100 →
      (genLoop now draws fuel i m2).1 = fallbackCode now := by
  intro fuel
  induction fuel with
  | zero => intro i m2 _ _; rfl
  | succ fuel ih =>
    intro i m2 hm2 hle
    by_cases hi : 100 ≤ i + 1
    · simp [genLoop, hi]
    · have hi99 : i < 99 := by omega
      obtain ⟨o, ho, hst⟩ := hall i hi99
      have ho2 : omLookup (purgeExpired now m2) (mkCode (draws i)) = some o := by
        rw [hm2]; exact ho
      have hg := getOrderByCode_active ho2 hst
      have hred : genLoop now draws (fuel + 1) i m2
          = genLoop now draws fuel (i + 1) (purgeExpired now m2) := by
        simp [genLoop, hi, hg]
      rw [hred]
      exact ih (i + 1) (purgeExpired now m2) (by rw [purgeExpired_idem]; exact hm2) (by omega)

/-- C6: `generateOrderCode` always terminates with a code of the fixed
two-uppercase-letters-plus-four-digits pattern; its result depends only on the
first 100 draws (the loop is bounded by `maxAttempts = 100`); and when every
checked draw collides with an active order it returns the timestamp-derived
fallback. -/
theorem generateOrderCode_terminates_with_pattern :
    (∀ (m : OrderMap) (now : Nat) (draws : Nat → CodeDraw),
      isValidCodeFormat (generateOrderCode m now draws).1 = true)
    ∧ (∀ (m : OrderMap) (now : Nat) (draws draws2 : Nat → CodeDraw),
        (∀ j, j < 100 → draws j = draws2 j) →
        generateOrderCode m now draws = generateOrderCode m now draws2)
    ∧ (∀ (m : OrderMap) (now : Nat) (draws : Nat → CodeDraw),
        (∀ i, i < 99 → ∃ o, omLookup (purgeExpired now m) (mkCode (draws i)) = some o
          ∧ o.otp_status = some "active") →
        (generateOrderCode m now draws).1 = fallbackCode now) :=
  ⟨fun m now draws => genLoop_valid_format now draws 100 0 m,
   fun m now draws draws2 h => genLoop_congr now draws draws2 h 100 0 m (by omega),
   fun m now draws hall => genLoop_all_collide now draws m hall 100 0 m rfl (by omega)⟩

/-- C6 witness: at the sample store whose only order holds every drawn code,
the generator returns the well-formed timestamp fallback, and the result is
stable under replacing the draw stream beyond index 100. -/
theorem c6_witness :
    isValidCodeFormat (generateOrderCode c6Map 12 (fun _ => c6Draw)).1 = true
    ∧ (generateOrderCode c6Map 12 (fun _ => c6Draw)).1 = fallbackCode 12
    ∧ generateOrderCode c6Map 12 (fun _ => c6Draw)
      = generateOrderCode c6Map 12 (fun _ => c6Draw) :=
  ⟨generateOrderCode_terminates_with_pattern.1 c6Map 12 (fun _ => c6Draw),
   generateOrderCode_terminates_with_pattern.2.2 c6Map 12 (fun _ => c6Draw)
     (fun i _ => ⟨c6Order,
       show omLookup (purgeExpired 12 c6Map) (mkCode c6Draw) = some c6Order by decide, rfl⟩),
   generateOrderCode_terminates_with_pattern.2.1 c6Map 12 (fun _ => c6Draw)
     (fun _ => c6Draw) (fun j _ => rfl)⟩

/-! ## Claim C10 — `getAllOrders` and the storage mirrors -/

/-- C10 counterexample: after `getAllOrders`, the five `localStorage` keys hold
the merged expiry-purged map, but the `sessionStorage` backup is left holding
its old content (here: an expired order), so the backup does **not** hold the
identical merged map. -/
theorem c10_counterexample :
    (getAllOrders c10Storage 100).1 = [("AB1111", c10Active)]
    ∧ (getAllOrders c10Storage 100).2.mainKey = some [("AB1111", c10Active)]
    ∧ (getAllOrders c10Storage 100).2.sessionBackup = some [("CD2222", c10Expired)]
    ∧ isExpiredAt 100 c10Expired = true
    ∧ (getAllOrders c10Storage 100).2.sessionBackup ≠ some ((getAllOrders c10Storage 100).1) := by
  decide

/-- C10 (amended): when the merged expiry-purged map is nonempty, `getAllOrders`
rewrites the five `localStorage` keys with that identical map, the map contains
no expired order, and the `sessionStorage` backup is left untouched (it is
written only by the mutating operations, so it may diverge from the merged
view). -/
theorem getAllOrders_mirrors (st : ClientStorage) (now : Nat)
    (h : (getAllOrders st now).1 ≠ []) :
    ((getAllOrders st now).2.mainKey = some ((getAllOrders st now).1)
    ∧ (getAllOrders st now).2.sharedKey = some ((getAllOrders st now).1)
    ∧ (getAllOrders st now).2.studentKey = some ((getAllOrders st now).1)
    ∧ (getAllOrders st now).2.staffKey = some ((getAllOrders st now).1)
    ∧ (getAllOrders st now).2.crossPortKey = some ((getAllOrders st now).1))
    ∧ (∀ p ∈ (getAllOrders st now).1, isExpiredAt now p.2 = false)
    ∧ (getAllOrders st now).2.sessionBackup = st.sessionBackup := by
  simp only [getAllOrders] at h ⊢
  have hc : 0 < (purgeExpired now (mergeInto (mergeInto (mergeInto (mergeInto (mergeInto
      (mergeInto [] st.mainKey) st.sharedKey) st.studentKey) st.staffKey)
      st.crossPortKey) st.sessionBackup)).length :=
    List.length_pos.mpr h
  rw [if_pos hc]
  exact ⟨⟨rfl, rfl, rfl, rfl, rfl⟩,
    fun p hp => allFresh_purgeExpired now _ p hp, rfl⟩

/-- C10 witness: the amended theorem at the sample storage — the main key holds
the merged purged map and the backup is untouched. -/
theorem c10_witness :
    (getAllOrders c10Storage 100).2.mainKey = some ((getAllOrders c10Storage 100).1)
    ∧ (getAllOrders c10Storage 100).2.sessionBackup = c10Storage.sessionBackup :=
  ⟨(getAllOrders_mirrors c10Storage 100 (by decide)).1.1,
   (getAllOrders_mirrors c10Storage 100 (by decide)).2.2⟩

/-! ## Claim C8 — order-independence of deliveries -/

theorem deliveredOrder_items (o : OrderRecord) (c : String) (its : List Nat) :
    (deliveredOrder o c its).items_by_counter
      = o.items_by_counter.map (fun p =>
          if p.1 == c then (p.1, markItemsDelivered its p.2) else p) := by
  unfold deliveredOrder
  by_cases hc : hasCounter o c = true
  · simp [hc]
  · simp only [hc, Bool.false_eq_true, if_false]
    have hall : ∀ p ∈ o.items_by_counter, (p.1 == c) = false := by
      intro p hp
      cases hb : (p.1 == c) with
      | false => rfl
      | true => exact absurd (List.any_eq_true.mpr ⟨p, hp, hb⟩) hc
    have : ∀ p ∈ o.items_by_counter,
        (if p.1 == c then (p.1, markItemsDelivered its p.2) else p) = p := by
      intro p hp
      rw [hall p hp]
      rfl
    rw [List.map_congr_left this]
    simp

theorem deliveredOrder_keys (o : OrderRecord) (c : String) (its : List Nat) :
    (deliveredOrder o c its).items_by_counter.map Prod.fst
      = o.items_by_counter.map Prod.fst := by
  rw [deliveredOrder_items, List.map_map]
  apply List.map_congr_left
  intro p _
  by_cases hp : p.1 = c <;> simp [hp]

theorem deliveredOrder_completed (o : OrderRecord) (c : String) (its : List Nat) :
    (deliveredOrder o c its).counters_completed
      = some (pushNew (o.counters_completed.getD []) c) := by
  unfold deliveredOrder pushNew
  by_cases hc : hasCounter o c = true <;> simp [hc]

theorem deliverFold_items (now : Nat) :
    ∀ (l : List (String × List Nat)) (o : OrderRecord),
    (deliverFold now o l).items_by_counter
      = o.items_by_counter.map (fun q => (q.1, itemsAfter l q.1 q.2)) := by
  intro l
  induction l with
  | nil =>
    intro o
    have h : ∀ q ∈ o.items_by_counter, (q.1, itemsAfter [] q.1 q.2) = q := fun q _ => rfl
    rw [List.map_congr_left h]
    simp [deliverFold]
  | cons d l ih =>
    intro o
    show (deliverFold now (deliverStep now d o) l).items_by_counter = _
    rw [ih (deliverStep now d o)]
    have hstep : (deliverStep now d o).items_by_counter
        = o.items_by_counter.map (fun p =>
            if p.1 == d.1 then (p.1, markItemsDelivered d.2 p.2) else p) :=
      deliveredOrder_items o d.1 d.2
    rw [hstep, List.map_map]
    apply List.map_congr_left
    intro p _
    by_cases hp : p.1 = d.1
    · have hb : (p.1 == d.1) = true := by rw [hp]; exact beq_self_eq_true d.1
      simp only [Function.comp_apply, hb, if_true, itemsAfter, List.foldl_cons]
    · have hb : (p.1 == d.1) = false := by
        cases hx : (p.1 == d.1) with
        | false => rfl
        | true => exact absurd (eq_of_beq hx) hp
      simp only [Function.comp_apply, hb, Bool.false_eq_true, if_false, itemsAfter,
        List.foldl_cons]

theorem itemsAfter_eq_of_no_key {k : String} :
    ∀ {l : List (String × List Nat)}, (∀ d ∈ l, (k == d.1) = false) →
    ∀ v, itemsAfter l k v = v := by
  intro l
  induction l with
  | nil => intro _ v; rfl
  | cons d l ih =>
    intro h v
    have hd := h d (List.mem_cons_self d l)
    show itemsAfter l k (if k == d.1 then markItemsDelivered d.2 v else v) = v
    rw [hd]
    exact ih (fun e he => h e (List.mem_cons_of_mem d he)) v

theorem itemsAfter_of_mem {k : String} {s : List Nat} :
    ∀ {l : List (String × List Nat)}, (l.map Prod.fst).Nodup → (k, s) ∈ l →
    ∀ v, itemsAfter l k v = markItemsDelivered s v := by
  intro l
  induction l with
  | nil => intro _ hmem; cases hmem
  | cons d l ih =>
    intro hnd hmem v
    have hnd2 := List.nodup_cons.mp hnd
    rcases List.mem_cons.mp hmem with heq | hmem2
    · have hd : d = (k, s) := heq.symm
      subst hd
      show itemsAfter l k (if k == k then markItemsDelivered s v else v) = _
      rw [if_pos (beq_self_eq_true k)]
      apply itemsAfter_eq_of_no_key
      intro e he
      cases hx : (k == e.1) with
      | false => rfl
      | true =>
        exfalso
        apply hnd2.1
        rw [show (k : String) = e.1 from eq_of_beq hx]
        exact List.mem_map.mpr ⟨e, he, rfl⟩
    · have hk : (k == d.1) = false := by
        cases hx : (k == d.1) with
        | false => rfl
        | true =>
          exfalso
          apply hnd2.1
          rw [← show (k : String) = d.1 from eq_of_beq hx]
          exact List.mem_map.mpr ⟨(k, s), hmem2, rfl⟩
      show itemsAfter l k (if k == d.1 then markItemsDelivered d.2 v else v) = _
      rw [hk]
      exact ih hnd2.2 hmem2 v

theorem mem_pushNew {x c : String} {l : List String} :
    x ∈ pushNew l c ↔ x ∈ l ∨ x = c := by
  unfold pushNew
  by_cases h : l.contains c = true
  · simp only [h, if_true]
    exact ⟨Or.inl, fun hx => hx.elim id (fun he => he ▸ List.elem_iff.mp h)⟩
  · simp only [h, Bool.false_eq_true, if_false]
    rw [List.mem_append, List.mem_singleton]

theorem mem_completedAfter {x : String} :
    ∀ (l : List (String × List Nat)) (cs : List String),
    x ∈ completedAfter l cs ↔ x ∈ cs ∨ x ∈ l.map Prod.fst := by
  intro l
  induction l with
  | nil => intro cs; simp [completedAfter]
  | cons d l ih =>
    intro cs
    show x ∈ completedAfter l (pushNew cs d.1) ↔ _
    rw [ih (pushNew cs d.1)]
    constructor
    · rintro (hx | hx)
      · rcases mem_pushNew.mp hx with h1 | h2
        · exact Or.inl h1
        · exact Or.inr (by rw [List.map_cons]; exact List.mem_cons.mpr (Or.inl h2))
      · exact Or.inr (by rw [List.map_cons]; exact List.mem_cons.mpr (Or.inr hx))
    · rintro (hx | hx)
      · exact Or.inl (mem_pushNew.mpr (Or.inl hx))
      · rw [List.map_cons] at hx
        rcases List.mem_cons.mp hx with h1 | h2
        · exact Or.inl (mem_pushNew.mpr (Or.inr h1))
        · exact Or.inr h2

theorem deliverFold_completed (now : Nat) :
    ∀ (l : List (String × List Nat)) (o : OrderRecord), l ≠ [] →
    (deliverFold now o l).counters_completed
      = some (completedAfter l (o.counters_completed.getD [])) := by
  intro l
  induction l with
  | nil => intro o h; exact absurd rfl h
  | cons d l ih =>
    intro o _
    show (deliverFold now (deliverStep now d o) l).counters_completed = _
    cases l with
    | nil => exact deliveredOrder_completed o d.1 d.2
    | cons e l2 =>
      rw [ih (deliverStep now d o) (by simp)]
      have hstep : (deliverStep now d o).counters_completed
          = some (pushNew (o.counters_completed.getD []) d.1) :=
        deliveredOrder_completed o d.1 d.2
      rw [hstep]
      rfl

theorem deliverFold_keys (now : Nat) :
    ∀ (l : List (String × List Nat)) (o : OrderRecord),
    (deliverFold now o l).items_by_counter.map Prod.fst
      = o.items_by_counter.map Prod.fst := by
  intro l
  induction l with
  | nil => intro o; rfl
  | cons d l ih =>
    intro o
    show (deliverFold now (deliverStep now d o) l).items_by_counter.map Prod.fst = _
    rw [ih (deliverStep now d o)]
    exact deliveredOrder_keys o d.1 d.2

theorem completionInvariant_deliverFold (now : Nat) :
    ∀ (l : List (String × List Nat)) (o : OrderRecord), l ≠ [] →
    completionInvariant (deliverFold now o l) := by
  intro l
  induction l with
  | nil => intro o h; exact absurd rfl h
  | cons d l ih =>
    intro o _
    show completionInvariant (deliverFold now (deliverStep now d o) l)
    cases l with
    | nil => exact completionInvariant_deliveredOrder o d.1 d.2
    | cons e l2 => exact ih (deliverStep now d o) (by simp)

theorem deliverStep_otp_status (now : Nat) (d : String × List Nat) (o : OrderRecord) :
    (deliverStep now d o).otp_status = o.otp_status :=
  deliveredOrder_otp_status o d.1 d.2

theorem applyDeliveries_lookup (now : Nat) (code : String) :
    ∀ (l : List (String × List Nat)) (m : OrderMap) (o : OrderRecord),
    omLookup (purgeExpired now m) code = some o → o.otp_status = some "active" → l ≠ [] →
    omLookup (applyDeliveries m now code l) code = some (deliverFold now o l) := by
  intro l
  induction l with
  | nil => intro m o _ _ hneq; exact absurd rfl hneq
  | cons d l ih =>
    intro m o h hst _
    have hmc := markCounterDelivered_of_status h hst (by decide) d.1 d.2
    have hm2 : (markCounterDelivered m now code d.1 d.2).2
        = omInsert (purgeExpired now m) code (deliverStep now d o) := by
      rw [hmc]
      rfl
    have hfr : isExpiredAt now (deliverStep now d o) = false := by
      have he : (deliverStep now d o).expires_at = o.expires_at :=
        deliveredOrder_expires_at o d.1 d.2
      rw [isExpiredAt_of_expires_eq he]
      exact isExpiredAt_eq_false_of_lookup_purge h
    cases l with
    | nil =>
      show omLookup (markCounterDelivered m now code d.1 d.2).2 code
        = some (deliverStep now d o)
      rw [hm2]
      exact omLookup_omInsert_self (purgeExpired now m) code (deliverStep now d o)
    | cons e l2 =>
      have hlook : omLookup
          (purgeExpired now ((markCounterDelivered m now code d.1 d.2).2)) code
          = some (deliverStep now d o) := by
        rw [hm2, purgeExpired_omInsert_fresh hfr, omLookup_omInsert_self]
      have hst2 : (deliverStep now d o).otp_status = some "active" := by
        rw [deliverStep_otp_status]; exact hst
      show omLookup (applyDeliveries (markCounterDelivered m now code d.1 d.2).2
          now code (e :: l2)) code
        = some (deliverFold now (deliverStep now d o) (e :: l2))
      exact ih (markCounterDelivered m now code d.1 d.2).2 (deliverStep now d o)
        hlook hst2 (by simp)

theorem contains_congr {l1 l2 : List String} (h : ∀ x, x ∈ l1 ↔ x ∈ l2) (x : String) :
    l1.contains x = l2.contains x := by
  rw [Bool.eq_iff_iff]
  constructor
  · intro hx; exact List.elem_iff.mpr ((h x).mp (List.elem_iff.mp hx))
  · intro hx; exact List.elem_iff.mpr ((h x).mpr (List.elem_iff.mp hx))

theorem all_congr_ext {α : Type} {l : List α} {f g : α → Bool} (h : ∀ x ∈ l, f x = g x) :
    l.all f = l.all g := by
  induction l with
  | nil => rfl
  | cons a t ih =>
    rw [List.all_cons, List.all_cons, h a (List.mem_cons_self a t),
      ih (fun x hx => h x (List.mem_cons_of_mem a hx))]

/-- C8: delivering to pairwise-distinct counters, each with its full item-id
set, is order-independent — for any permutation of the delivery sequence the
stored record afterwards has the same `items_by_counter` (same delivered
flags), the same `counters_completed` as a set, and the same `is_complete`;
moreover every item of a delivered counter ends up flagged delivered. -/
theorem markCounterDelivered_order_independent (m : OrderMap) (now : Nat) (code : String)
    (o : OrderRecord) (l1 l2 : List (String × List Nat))
    (h : omLookup (purgeExpired now m) code = some o)
    (hst : o.otp_status = some "active")
    (hnd : (l1.map Prod.fst).Nodup)
    (hfull : ∀ d ∈ l1, FullDelivery o d)
    (hperm : l1.Perm l2) :
    ∃ o1 o2,
      omLookup (applyDeliveries m now code l1) code = some o1
      ∧ omLookup (applyDeliveries m now code l2) code = some o2
      ∧ o1.items_by_counter = o2.items_by_counter
      ∧ (∀ x, x ∈ o1.counters_completed.getD [] ↔ x ∈ o2.counters_completed.getD [])
      ∧ o1.is_complete = o2.is_complete
      ∧ (∀ q ∈ o1.items_by_counter, q.1 ∈ l1.map Prod.fst →
          ∀ it ∈ q.2, it.delivered = true) := by
  cases l1 with
  | nil =>
    have hl2 : l2 = [] := hperm.nil_eq.symm
    subst hl2
    have hmem2 : (code, o) ∈ m := (List.mem_filter.mp (omLookup_mem h)).1
    have hsome : (m.find? (fun p => p.1 == code)).isSome = true :=
      List.find?_isSome.mpr ⟨(code, o), hmem2, beq_self_eq_true code⟩
    obtain ⟨q, hq⟩ := Option.isSome_iff_exists.mp hsome
    refine ⟨q.2, q.2, ?_, ?_, rfl, fun x => Iff.rfl, rfl, ?_⟩
    · show omLookup m code = some q.2
      unfold omLookup
      rw [hq]
      rfl
    · show omLookup m code = some q.2
      unfold omLookup
      rw [hq]
      rfl
    · intro q2 _ hq2in
      simp at hq2in
  | cons d l1t =>
    have hne1 : (d :: l1t) ≠ [] := by simp
    have hne2 : l2 ≠ [] := by
      intro h2
      rw [h2] at hperm
      have := hperm.eq_nil
      simp at this
    have hnd2 : (l2.map Prod.fst).Nodup := ((hperm.map Prod.fst).nodup_iff).mp hnd
    have h1 := applyDeliveries_lookup now code (d :: l1t) m o h hst hne1
    have h2 := applyDeliveries_lookup now code l2 m o h hst hne2
    have hmemiff : ∀ x, x ∈ (deliverFold now o (d :: l1t)).counters_completed.getD []
        ↔ x ∈ (deliverFold now o l2).counters_completed.getD [] := by
      intro x
      rw [deliverFold_completed now (d :: l1t) o hne1, deliverFold_completed now l2 o hne2]
      show x ∈ completedAfter (d :: l1t) (o.counters_completed.getD [])
        ↔ x ∈ completedAfter l2 (o.counters_completed.getD [])
      rw [mem_completedAfter, mem_completedAfter]
      constructor
      · rintro (hx | hx)
        · exact Or.inl hx
        · exact Or.inr ((hperm.map Prod.fst).mem_iff.mp hx)
      · rintro (hx | hx)
        · exact Or.inl hx
        · exact Or.inr ((hperm.map Prod.fst).mem_iff.mpr hx)
    refine ⟨deliverFold now o (d :: l1t), deliverFold now o l2, h1, h2, ?_, hmemiff, ?_, ?_⟩
    · rw [deliverFold_items now (d :: l1t) o, deliverFold_items now l2 o]
      apply List.map_congr_left
      intro q _
      have : itemsAfter (d :: l1t) q.1 q.2 = itemsAfter l2 q.1 q.2 := by
        by_cases hex : ∃ s, ((q.1 : String), s) ∈ (d :: l1t)
        · obtain ⟨s, hs⟩ := hex
          rw [itemsAfter_of_mem hnd hs, itemsAfter_of_mem hnd2 (hperm.mem_iff.mp hs)]
        · have hno : ∀ e ∈ (d :: l1t), ((q.1 : String) == e.1) = false := by
            intro e he
            cases hx : (q.1 == e.1) with
            | false => rfl
            | true =>
              exfalso
              apply hex
              refine ⟨e.2, ?_⟩
              have hqe : q.1 = e.1 := eq_of_beq hx
              rw [hqe]
              exact he
          have hno2 : ∀ e ∈ l2, ((q.1 : String) == e.1) = false :=
            fun e he => hno e (hperm.mem_iff.mpr he)
          rw [itemsAfter_eq_of_no_key hno, itemsAfter_eq_of_no_key hno2]
      rw [this]
    · have hc1 := completionInvariant_deliverFold now (d :: l1t) o hne1
      have hc2 := completionInvariant_deliverFold now l2 o hne2
      unfold completionInvariant at hc1 hc2
      rw [hc1, hc2, deliverFold_keys now (d :: l1t) o, deliverFold_keys now l2 o]
      apply all_congr_ext
      intro x _
      exact contains_congr hmemiff x
    · intro q hq hqin it hit
      rw [deliverFold_items now (d :: l1t) o] at hq
      obtain ⟨q0, hq0, hq0e⟩ := List.mem_map.mp hq
      have hkey : q.1 = q0.1 := by rw [← hq0e]
      rw [hkey] at hqin
      obtain ⟨d2, hd2, hd2k⟩ := List.mem_map.mp hqin
      have hmemL : ((q0.1 : String), d2.2) ∈ (d :: l1t) := by
        have : ((q0.1 : String), d2.2) = d2 := by
          rw [← hd2k]
        rw [this]
        exact hd2
      have hIA := itemsAfter_of_mem hnd hmemL q0.2
      have hit2 : it ∈ markItemsDelivered d2.2 q0.2 := by
        rw [← hIA]
        have hq2 : q.2 = itemsAfter (d :: l1t) q0.1 q0.2 := by rw [← hq0e]
        rw [← hq2]
        exact hit
      obtain ⟨it0, hit0, hit0e⟩ := List.mem_map.mp hit2
      have hcont : d2.2.contains it0.id = true :=
        hfull d2 hd2 q0 hq0 (by rw [hd2k]) it0 hit0
      rw [← hit0e]
      show (if d2.2.contains it0.id then { it0 with delivered := true } else it0).delivered
        = true
      rw [hcont]
      rfl

/-- C8 witness: the two-counter sample order delivered as `A` then `B` versus
`B` then `A` gives the same flags, completed set and completion bit. -/
theorem c8_witness :
    ∃ o1 o2,
      omLookup (applyDeliveries c8Map 4 "KL8888" c8Seq1) "KL8888" = some o1
      ∧ omLookup (applyDeliveries c8Map 4 "KL8888" c8Seq2) "KL8888" = some o2
      ∧ o1.items_by_counter = o2.items_by_counter
      ∧ (∀ x, x ∈ o1.counters_completed.getD [] ↔ x ∈ o2.counters_completed.getD [])
      ∧ o1.is_complete = o2.is_complete
      ∧ (∀ q ∈ o1.items_by_counter, q.1 ∈ c8Seq1.map Prod.fst →
          ∀ it ∈ q.2, it.delivered = true) :=
  markCounterDelivered_order_independent c8Map 4 "KL8888" c8Order c8Seq1 c8Seq2
    (by decide) (by decide) (by decide) (by decide)
    (List.Perm.swap ("B", [2, 3]) ("A", [1]) [])
